import Mathlib

/-!
# Verification development for the pi-web session broker

Shallow embedding of the core of the pi-web repository:

* `src/rpc.ts` — the Agent Process Transport (`RpcSession`): newline framing of
  the agent process's stdout into JSON events.
* `src/server.ts` — the session multiplexer: the registry of managed sessions,
  client bindings, idle reclaim, capability gating and process-exit teardown.

JavaScript values flowing through the broker are modelled by the inductive
`Json`.  The broker state is modelled by `ServerState`; each externally
triggered action (a client message, an agent event, process exit, the idle
timer firing) is a `Label`, and `step` is the transition function transcribed
from the handlers in `src/server.ts`.  Two ghost fields record observable
facts that the real code exhibits through side effects: `created` (one entry
per `RpcSession` construction, with the registry key it was created under) and
`rpcKilled` (whether `rpc.kill()` has been invoked for the session).

Transport-internal effects — the actual process spawn, the initial
`switch_session` command a transport sends when constructed with a session
file, and the SIGTERM/SIGKILL escalation inside `kill()` — happen beyond the
broker's state and are represented only by those ghost fields.  Sockets are
modelled as open (`sendToSocket`'s readyState guard always passes), and
`resolve` — path normalization by the external path library — is the identity
on the already-normalized paths of this model.
-/

namespace PiWeb

/-- JSON-like JavaScript values (the shapes exchanged with the agent process
and the clients).  `null` also stands for `undefined`. -/
inductive Json where
  | null
  | bool (b : Bool)
  | num (n : Int)
  | str (s : String)
  | arr (elems : List Json)
  | obj (fields : List (String × Json))

/-- Look a key up in a JS object literal's field list (first match). -/
def lookupField : List (String × Json) → String → Option Json
  | [], _ => none
  | (k', v) :: t, k => if k' = k then some v else lookupField t k

/-- `j?.k` — property access guarded by object-ness (non-objects have no
string-keyed properties reachable through the broker's accesses). -/
def Json.field : Json → String → Option Json
  | .obj fs, k => lookupField fs k
  | _, _ => none

/-- The string content of a JSON value, when it is a string. -/
def Json.asStr : Json → Option String
  | .str s => some s
  | _ => none

/-- `j?.k` when the broker compares it with a string literal via `===`. -/
def Json.strField (j : Json) (k : String) : Option String :=
  (j.field k).bind Json.asStr

/-- JavaScript truthiness of a JSON value. -/
def Json.truthy : Json → Bool
  | .null => false
  | .bool b => b
  | .num n => n != 0
  | .str s => s != ""
  | .arr _ => true
  | .obj _ => true

/-- Truthiness of a possibly absent property (`undefined` is falsy). -/
def truthyOpt : Option Json → Bool
  | some j => j.truthy
  | none => false

/-! ## Agent Process Transport output framing (`src/rpc.ts`)

The stdout `data` handler appends the chunk to `this.buffer`, then repeatedly
splits off everything before the first `"\n"`, trims it, and — if non-empty —
attempts `JSON.parse`, delivering successful parses to `onEvent`.  We model
byte strings as `List Char`, and `JSON.parse` (an external library function
that either succeeds or throws) as an arbitrary partial function `parse`. -/

/-- The whitespace characters removed by JavaScript's `String.prototype.trim`
(the ASCII ones; the agent protocol is ASCII). -/
def jsWhitespace (c : Char) : Bool :=
  c == ' ' || c == '\t' || c == '\n' || c == '\r' || c == '\x0b' || c == '\x0c'

/-- `line.trim()` on a chunk of characters. -/
def trimChars (l : List Char) : List Char :=
  ((l.dropWhile jsWhitespace).reverse.dropWhile jsWhitespace).reverse

/-- What one complete line contributes: `line.trim()`, skip if empty, then
`JSON.parse`; a parse failure is swallowed (`none`). -/
def lineEvent {α : Type} (parse : List Char → Option α) (l : List Char) : Option α :=
  let t := trimChars l
  if t.isEmpty then none else parse t

/-- The splitting loop of the stdout handler.  `acc` holds the characters of
the current (not yet newline-terminated) line, most recent first; on `"\n"`
the accumulated line is emitted through `lineEvent` and the loop continues.
The characters left at the end form the retained `this.buffer`. -/
def pumpAux {α : Type} (parse : List Char → Option α) :
    List Char → List Char → List Char × List α
  | acc, [] => (acc.reverse, [])
  | acc, c :: cs =>
    if c = '\n' then
      let r := pumpAux parse [] cs
      (r.1, (lineEvent parse acc.reverse).toList ++ r.2)
    else
      pumpAux parse (c :: acc) cs

/-- Process a whole buffer from scratch (the state of the `while` loop right
after `this.buffer += chunk`): returns the retained buffer and the events
delivered, in order. -/
def pumpBuffer {α : Type} (parse : List Char → Option α) (buf : List Char) :
    List Char × List α :=
  pumpAux parse [] buf

/-- One invocation of the stdout `data` handler: append the chunk to the
buffer, then run the splitting loop.  The second component of the state
accumulates every event delivered so far. -/
def feedChunk {α : Type} (parse : List Char → Option α)
    (st : List Char × List α) (chunk : List Char) : List Char × List α :=
  let r := pumpBuffer parse (st.1 ++ chunk)
  (r.1, st.2 ++ r.2)

/-- Deliver a stream of chunks to a fresh transport. -/
def processAll {α : Type} (parse : List Char → Option α)
    (chunks : List (List Char)) : List Char × List α :=
  chunks.foldl (feedChunk parse) ([], [])

/-- The newline-terminated lines of a character stream, in order (`acc` as in
`pumpAux`); the trailing newline-less remainder is not a line. -/
def linesAux : List Char → List Char → List (List Char)
  | _, [] => []
  | acc, c :: cs =>
    if c = '\n' then acc.reverse :: linesAux [] cs else linesAux (c :: acc) cs

/-- The newline-terminated lines of a character stream. -/
def completeLines (s : List Char) : List (List Char) :=
  linesAux [] s

/-! ## The session multiplexer (`src/server.ts`)

Clients (websockets) are identified by naturals, managed sessions by the
natural `sid` they receive from the monotone counter `nextId` when
`createManagedSession` runs (object identity in the JavaScript heap).  The
two global `Map`s become functions; the `Set`s inside a managed session
become insertion-ordered duplicate-free lists, matching JavaScript `Set`
iteration order. -/

/-- A connected websocket client. -/
abbrev Client := Nat

/-- `path.basename` (POSIX): drop trailing separators, then keep the part of
the path after the last remaining separator. -/
def basename (p : String) : String :=
  let rest := p.data.reverse.dropWhile (fun c => c == '/')
  String.mk (rest.takeWhile (fun c => c != '/')).reverse

/-- The `ManagedRpcSession` record.  `rpc` (the transport object) is replaced
by the ghost flag `rpcKilled` — whether `rpc.kill()` has been called — since
the transport's identity is the session id itself.  `idleCleanupTimer`
records whether a reclaim timeout is currently pending. -/
structure ManagedSession where
  cwd : String
  sessionFile : Option String
  clients : List Client
  isAgentRunning : Bool
  currentModelSupportsImages : Option Bool
  keys : List String
  idleCleanupTimer : Bool
  isClosing : Bool
  rpcKilled : Bool
deriving DecidableEq

/-- Global broker state.  `store` is the JavaScript heap of managed-session
objects, `rpcSessions` and `socketBindings` the two global `Map`s, and
`created` a ghost trace with one entry — the registry key used at
construction and the session id — per `RpcSession` (transport) ever
constructed. -/
structure ServerState where
  store : Nat → Option ManagedSession
  nextId : Nat
  rpcSessions : String → Option Nat
  socketBindings : Client → Option Nat
  created : List (String × Nat)

/-- The broker before any connection. -/
def initState : ServerState :=
  { store := fun _ => none
    nextId := 0
    rpcSessions := fun _ => none
    socketBindings := fun _ => none
    created := [] }

/-- Replace the managed-session object at `sid`. -/
def setStore (st : ServerState) (sid : Nat) (m : ManagedSession) : ServerState :=
  { st with store := fun i => if i = sid then some m else st.store i }

/-- Mutate the managed-session object at `sid`, if it exists. -/
def updStore (st : ServerState) (sid : Nat) (f : ManagedSession → ManagedSession) :
    ServerState :=
  match st.store sid with
  | none => st
  | some m => setStore st sid (f m)

/-- `buildSessionKey(cwd, sessionFile)`. -/
def buildSessionKey (cwd : String) (sessionFile : Option String) : String :=
  cwd ++ "::" ++ (match sessionFile with
    | some f => basename f
    | none => "__new__")

/-- Messages the broker sends out, and the transport forward.  `toTransport`
records a `managed.rpc.send(command)` call. -/
inductive Payload where
  | rpcEvent (ev : Json)
  | errorMsg (message : String)
  | sessionEnded (code : Option Int)
  | pong

/-- Observable effects of one step. -/
inductive Output where
  | toClient (ws : Client) (payload : Payload)
  | toTransport (sid : Nat) (command : Json)

/-- `broadcast(managed, payload)` — one `sendToSocket` per attached client,
in client-set insertion order (sockets are modelled as open). -/
def broadcastTo (clients : List Client) (p : Payload) : List Output :=
  clients.map (fun ws => Output.toClient ws p)

/-- `clearIdleCleanupTimer(managed)` (the `clearTimeout` call is external). -/
def clearIdleCleanupTimer (m : ManagedSession) : ManagedSession :=
  { m with idleCleanupTimer := false }

/-- `cleanupIfIdle(managed)`: arm the idle-reclaim timeout only when the
session is not closing, has no clients, the agent is idle, and no timeout is
already pending; clear a pending timeout when clients exist or the agent is
running. -/
def cleanupIfIdle (m : ManagedSession) : ManagedSession :=
  if m.isClosing then m
  else if 0 < m.clients.length then clearIdleCleanupTimer m
  else if m.isAgentRunning then clearIdleCleanupTimer m
  else if m.idleCleanupTimer then m
  else { m with idleCleanupTimer := true }

/-- `unregisterManagedSession(managed)`: delete every registry key that maps
to this session and is among its keys, then clear `managed.keys`. -/
def unregisterManagedSession (st : ServerState) (sid : Nat) : ServerState :=
  match st.store sid with
  | none => st
  | some m =>
    { st with
      rpcSessions := fun k =>
        if k ∈ m.keys ∧ st.rpcSessions k = some sid then none else st.rpcSessions k
      store := fun i => if i = sid then some { m with keys := [] } else st.store i }

/-- `registerManagedSessionKey(managed, key)`: add the key to the session's
key set and point the registry entry for `key` at it. -/
def registerManagedSessionKey (st : ServerState) (sid : Nat) (key : String) :
    ServerState :=
  match st.store sid with
  | none => st
  | some m =>
    { st with
      store := fun i =>
        if i = sid then
          some { m with keys := if key ∈ m.keys then m.keys else m.keys ++ [key] }
        else st.store i
      rpcSessions := fun k => if k = key then some sid else st.rpcSessions k }

/-- `closeManagedSession(managed)`: idempotent; mark closing, drop the pending
timer, deregister, and kill the transport. -/
def closeManagedSession (st : ServerState) (sid : Nat) : ServerState :=
  match st.store sid with
  | none => st
  | some m =>
    if m.isClosing then st
    else
      let st1 := setStore st sid { m with isClosing := true, idleCleanupTimer := false }
      let st2 := unregisterManagedSession st1 sid
      updStore st2 sid (fun mm => { mm with rpcKilled := true })

/-- The idle timeout callback firing for session `sid`: only a pending timer
can fire; the callback nulls the handle, then re-checks closing, clients and
the running flag before closing the session. -/
def timerFire (st : ServerState) (sid : Nat) : ServerState :=
  match st.store sid with
  | none => st
  | some m =>
    if m.idleCleanupTimer = false then st
    else
      let st0 := setStore st sid { m with idleCleanupTimer := false }
      if m.isClosing then st0
      else if 0 < m.clients.length then st0
      else if m.isAgentRunning then st0
      else closeManagedSession st0 sid

/-- `detachSocket(ws)`: remove the client from its bound session's client
set, clear the binding, and re-evaluate idle cleanup on that session. -/
def detachSocket (st : ServerState) (ws : Client) : ServerState :=
  match st.socketBindings ws with
  | none => st
  | some sid =>
    match st.store sid with
    | none => st
    | some m =>
      { st with
        store := fun i =>
          if i = sid then some (cleanupIfIdle { m with clients := m.clients.erase ws })
          else st.store i
        socketBindings := fun w => if w = ws then none else st.socketBindings w }

/-- `registerDiscoveredSessionKey(managed, event)`: a `response` event for
`get_state` carrying a non-empty string `data.sessionFile` registers the key
built from the session's cwd and the file's base name. -/
def registerDiscoveredSessionKey (st : ServerState) (sid : Nat) (ev : Json) :
    ServerState :=
  match st.store sid with
  | none => st
  | some m =>
    if ev.strField "type" = some "response" ∧ ev.strField "command" = some "get_state" then
      match (ev.field "data").bind (fun d => d.field "sessionFile") with
      | some (.str s) =>
        if s.length = 0 then st
        else registerManagedSessionKey st sid (buildSessionKey m.cwd (some (basename s)))
      | _ => st
    else st

/-- `deriveModelSupportsImages(model)`: `null` unless the value is an object
whose `input` property is an array; then whether that array contains the
string `"image"`. -/
def deriveModelSupportsImages : Option Json → Option Bool
  | some (.obj fs) =>
    match lookupField fs "input" with
    | some (.arr xs) => some (xs.any (fun x => x.asStr == some "image"))
    | _ => none
  | _ => none

/-- `updateSessionModelCapability(managed, event)`: refresh the tri-state
image-capability flag from `model_changed` events, `get_state` responses and
successful `set_model` responses; keep it unchanged when modality information
is absent or malformed. -/
def updateSessionModelCapability (m : ManagedSession) (ev : Json) : ManagedSession :=
  if ev.strField "type" = some "model_changed" then
    match deriveModelSupportsImages (ev.field "model") with
    | some b => { m with currentModelSupportsImages := some b }
    | none => m
  else if ev.strField "type" = some "response" then
    if ev.strField "command" = some "get_state" then
      match deriveModelSupportsImages ((ev.field "data").bind (fun d => d.field "model")) with
      | some b => { m with currentModelSupportsImages := some b }
      | none => m
    else if ev.strField "command" = some "set_model" ∧ truthyOpt (ev.field "success") then
      match deriveModelSupportsImages (ev.field "data") with
      | some b => { m with currentModelSupportsImages := some b }
      | none => m
    else m
  else m

/-- `createManagedSession(cwd, sessionFile)`: construct a transport (recorded
in the `created` ghost trace under the key the session is registered with),
allocate the session object, and register it under its build key.  Returns
the new session id. -/
def createManagedSession (st : ServerState) (cwd : String) (sessionFile : Option String) :
    ServerState × Nat :=
  let sid := st.nextId
  let key := buildSessionKey cwd sessionFile
  let m : ManagedSession :=
    { cwd := cwd
      sessionFile := sessionFile
      clients := []
      isAgentRunning := false
      currentModelSupportsImages := none
      keys := []
      idleCleanupTimer := false
      isClosing := false
      rpcKilled := false }
  let st1 : ServerState :=
    { st with
      store := fun i => if i = sid then some m else st.store i
      nextId := sid + 1
      created := st.created ++ [(key, sid)] }
  (registerManagedSessionKey st1 sid key, sid)

/-- `if (event?.type === 'agent_start')`: set the running flag and cancel a
pending idle timer. -/
def agentStartStep (st : ServerState) (sid : Nat) (ev : Json) : ServerState :=
  if ev.strField "type" = some "agent_start" then
    updStore st sid (fun m => clearIdleCleanupTimer { m with isAgentRunning := true })
  else st

/-- `if (event?.type === 'agent_end')`: clear the running flag and re-evaluate
idle cleanup. -/
def agentEndStep (st : ServerState) (sid : Nat) (ev : Json) : ServerState :=
  if ev.strField "type" = some "agent_end" then
    updStore st sid (fun m => cleanupIfIdle { m with isAgentRunning := false })
  else st

/-- The state updates of the `onEvent` callback, in callback order: the
running flag and idle cleanup on `agent_start` / `agent_end`, the capability
flag, then discovered-key registration. -/
def agentEventState (st : ServerState) (sid : Nat) (ev : Json) : ServerState :=
  registerDiscoveredSessionKey
    (updStore (agentEndStep (agentStartStep st sid ev) sid ev) sid
      (fun m => updateSessionModelCapability m ev)) sid ev

/-- The `onEvent` callback of a session's transport: apply the state updates,
then broadcast the event to the attached clients. -/
def handleAgentEvent (st : ServerState) (sid : Nat) (ev : Json) :
    ServerState × List Output :=
  match st.store sid with
  | none => (st, [])
  | some _ =>
    let st4 := agentEventState st sid ev
    match st4.store sid with
    | some m4 => (st4, broadcastTo m4.clients (.rpcEvent ev))
    | none => (st4, [])

/-- The `onExit` callback of a session's transport: clear the running flag,
mark closing, drop the timer, deregister, broadcast the terminal envelope,
clear every attached client's binding to this session, and empty the client
set. -/
def handleProcExit (st : ServerState) (sid : Nat) (code : Option Int) :
    ServerState × List Output :=
  match st.store sid with
  | none => (st, [])
  | some m =>
    let m1 : ManagedSession :=
      { m with isAgentRunning := false, isClosing := true, idleCleanupTimer := false }
    let st2 := unregisterManagedSession (setStore st sid m1) sid
    let st3 : ServerState :=
      { st2 with
        socketBindings := fun w =>
          if w ∈ m1.clients ∧ st2.socketBindings w = some sid then none
          else st2.socketBindings w }
    (updStore st3 sid (fun mm => { mm with clients := [] }),
     broadcastTo m1.clients (.sessionEnded code))

/-- The `onError` callback: broadcast non-empty trimmed stderr chunks as
error envelopes. -/
def handleAgentError (st : ServerState) (sid : Nat) (msg : String) : List Output :=
  match st.store sid with
  | none => []
  | some m =>
    if msg.data.any (fun c => !jsWhitespace c) then broadcastTo m.clients (.errorMsg msg)
    else []

/-- The environment's home directory (`resolve(process.env.HOME || '/')`), an
arbitrary fixed absolute path in this model. -/
def homeDir : String := "/home/user"

/-- The working directory a `start_session` message resolves to: the message's
`cwd` when it is a string with non-blank content (`cwd.trim().length > 0`),
else the home directory.  `resolve` — normalization by the external path
library — is the identity on the already-normalized paths of this model. -/
def msgCwd (cwd : String) : String :=
  if cwd.data.any (fun c => !jsWhitespace c) then cwd else homeDir

/-- The session file a `start_session` message resolves to: `basename` of a
non-empty string, else `null`. -/
def normalizeSessionFile : Option String → Option String
  | some s => if 0 < s.length then some (basename s) else none
  | none => none

/-- The registry key a `start_session` message targets. -/
def msgKey (cwd : String) (sessionFile : Option String) : String :=
  buildSessionKey (msgCwd cwd) (normalizeSessionFile sessionFile)

/-- `currentlyBound?.keys.has(key)` — whether the client is already bound to
the managed session that owns this exact key. -/
def alreadyBoundToKey (st : ServerState) (ws : Client) (key : String) : Bool :=
  match st.socketBindings ws with
  | some bsid =>
    match st.store bsid with
    | some bm => decide (key ∈ bm.keys)
    | none => false
  | none => false

/-- `rpcSessions.get(key)` filtered to a live, non-closing session (the
`!managed || managed.isClosing` re-creation test of the handler). -/
def lookupLive (st : ServerState) (key : String) : Option Nat :=
  match st.rpcSessions key with
  | some sid =>
    match st.store sid with
    | some m => if m.isClosing then none else some sid
    | none => none
  | none => none

/-- `rpcSessions.get(key)` followed by
`if (!managed || managed.isClosing) managed = createManagedSession(...)`:
the session id to attach to, together with the state after a possible
construction. -/
def resolveOrCreate (st0 : ServerState) (rcwd : String) (rfile : Option String) :
    ServerState × Nat :=
  match lookupLive st0 (buildSessionKey rcwd rfile) with
  | some sid => (st0, sid)
  | none => createManagedSession st0 rcwd rfile

/-- The non-idempotent path of the `start_session` handler: detach from any
current binding, resolve or create the managed session for the key, add the
client to its client set, clear the idle timer and record the binding. -/
def attachProceed (st : ServerState) (ws : Client) (rcwd : String)
    (rfile : Option String) : ServerState :=
  let pr := resolveOrCreate (detachSocket st ws) rcwd rfile
  let st2 := updStore pr.1 pr.2 (fun m =>
    clearIdleCleanupTimer
      { m with clients := if ws ∈ m.clients then m.clients else m.clients ++ [ws] })
  { st2 with socketBindings := fun w => if w = ws then some pr.2 else st2.socketBindings w }

/-- The `start_session` handler: if the client is already bound to the session
owning this key, just clear that session's pending idle timer; otherwise run
the attach path. -/
def handleStartSession (st : ServerState) (ws : Client) (cwd : String)
    (sessionFile : Option String) : ServerState :=
  if alreadyBoundToKey st ws (msgKey cwd sessionFile) then
    match st.socketBindings ws with
    | some bsid => updStore st bsid clearIdleCleanupTimer
    | none => st
  else
    attachProceed st ws (msgCwd cwd) (normalizeSessionFile sessionFile)

/-- `command?.type === 'prompt' || 'steer' || 'follow_up'`. -/
def isPromptLikeCommand (cmd : Json) : Bool :=
  cmd.strField "type" == some "prompt" || cmd.strField "type" == some "steer" ||
    cmd.strField "type" == some "follow_up"

/-- `Array.isArray(command?.images) && command.images.length > 0`. -/
def hasImages (cmd : Json) : Bool :=
  match cmd.field "images" with
  | some (.arr xs) => decide (0 < xs.length)
  | _ => false

/-- The `rpc_command` handler: require a binding; reject prompt-like commands
carrying images when the capability flag is definitively `false`; otherwise
forward the command to the transport. -/
def handleRpcCommand (st : ServerState) (ws : Client) (cmd : Json) :
    ServerState × List Output :=
  match st.socketBindings ws with
  | none => (st, [.toClient ws (.errorMsg "no active session")])
  | some sid =>
    match st.store sid with
    | none => (st, [.toClient ws (.errorMsg "no active session")])
    | some m =>
      if isPromptLikeCommand cmd ∧ hasImages cmd ∧
          m.currentModelSupportsImages = some false then
        (st, [.toClient ws (.errorMsg "selected model does not support file attachments")])
      else
        (st, [.toTransport sid cmd])

/-- One externally triggered action.  `detachSession` covers both the
`detach_session` message and the websocket `close` event (the handlers are
identical); malformed inbound frames are dropped before reaching any
handler and need no label. -/
inductive Label where
  | startSession (ws : Client) (cwd : String) (sessionFile : Option String)
  | detachSession (ws : Client)
  | rpcCommand (ws : Client) (cmd : Json)
  | ping (ws : Client)
  | agentEvent (sid : Nat) (ev : Json)
  | agentError (sid : Nat) (msg : String)
  | procExit (sid : Nat) (code : Option Int)
  | timerFire (sid : Nat)

/-- The broker's transition function. -/
def step (st : ServerState) (l : Label) : ServerState × List Output :=
  match l with
  | .startSession ws cwd sessionFile => (handleStartSession st ws cwd sessionFile, [])
  | .detachSession ws => (detachSocket st ws, [])
  | .rpcCommand ws cmd => handleRpcCommand st ws cmd
  | .ping ws => (st, [.toClient ws .pong])
  | .agentEvent sid ev => handleAgentEvent st sid ev
  | .agentError sid msg => (st, handleAgentError st sid msg)
  | .procExit sid code => handleProcExit st sid code
  | .timerFire sid => (timerFire st sid, [])

/-- Run a sequence of actions. -/
def run (st : ServerState) (labels : List Label) : ServerState :=
  labels.foldl (fun s l => (step s l).1) st

/-- Actions originating from clients (attach / detach / command / keepalive);
the quantification domain of the single-flight property. -/
def clientLabel : Label → Bool
  | .startSession .. => true
  | .detachSession _ => true
  | .rpcCommand .. => true
  | .ping _ => true
  | _ => false

/-- The number of transports ever constructed whose session was created under
registry key `k`. -/
def countCreatedFor (k : String) (st : ServerState) : Nat :=
  (st.created.filter (fun p => p.1 == k)).length

/-- The image-capability verdict an event carries, mirroring the branching of
`updateSessionModelCapability`: the input-modality list of a `model_changed`
event's model, of a `get_state` response's `data.model`, or of a successful
`set_model` response's `data`; `none` when the event is of another shape or
its modality information is absent or malformed. -/
def relevantModality (ev : Json) : Option Bool :=
  if ev.strField "type" = some "model_changed" then
    deriveModelSupportsImages (ev.field "model")
  else if ev.strField "type" = some "response" then
    if ev.strField "command" = some "get_state" then
      deriveModelSupportsImages ((ev.field "data").bind (fun d => d.field "model"))
    else if ev.strField "command" = some "set_model" ∧ truthyOpt (ev.field "success") then
      deriveModelSupportsImages (ev.field "data")
    else none
  else none

/-- The client-set update applied by the attach path. -/
def joinFn (ws : Client) (m : ManagedSession) : ManagedSession :=
  clearIdleCleanupTimer
    { m with clients := if ws ∈ m.clients then m.clients else m.clients ++ [ws] }

/-- The state after the join-and-bind tail of the attach path. -/
def joinBind (st1 : ServerState) (ws : Client) (sid : Nat) : ServerState :=
  { updStore st1 sid (joinFn ws) with
    socketBindings := fun w =>
      if w = ws then some sid else (updStore st1 sid (joinFn ws)).socketBindings w }

/-- Structural well-formedness of every reachable broker state: a bound
client's session exists, holds the client, and is not closing; a client in a
session's client set is bound to that session; ids at or above `nextId` are
unallocated; a registry entry's session exists and owns the entry's key. -/
structure GlobalInv (st : ServerState) : Prop where
  bound_mem : ∀ ws sid, st.socketBindings ws = some sid →
    ∃ m, st.store sid = some m ∧ ws ∈ m.clients ∧ m.isClosing = false
  mem_bound : ∀ sid m ws, st.store sid = some m → ws ∈ m.clients →
    st.socketBindings ws = some sid
  fresh : ∀ sid, st.nextId ≤ sid → st.store sid = none
  reg_keys : ∀ k sid, st.rpcSessions k = some sid →
    ∃ m, st.store sid = some m ∧ k ∈ m.keys
  nodup : ∀ sid m, st.store sid = some m → m.clients.Nodup

/-- Invariant of executions consisting of client actions only, relative to a
fixed key `k`: every construction recorded for `k` is still registered under
`k`; the registered session is live and non-closing; while nothing is
registered under `k`, nothing was ever constructed for `k`; a live session
owning `k` is the registered one; at most one construction for `k`; ids at
or above `nextId` are unallocated. -/
structure KeyInv (k : String) (st : ServerState) : Prop where
  created_reg : ∀ p ∈ st.created, p.1 = k → st.rpcSessions k = some p.2
  reg_live : ∀ sid, st.rpcSessions k = some sid →
    ∃ m, st.store sid = some m ∧ m.isClosing = false
  none_no_created : st.rpcSessions k = none → countCreatedFor k st = 0
  keys_reg : ∀ sid m, st.store sid = some m → k ∈ m.keys → st.rpcSessions k = some sid
  count_le : countCreatedFor k st ≤ 1
  fresh : ∀ sid, st.nextId ≤ sid → st.store sid = none

/-- After a session's process has exited: the session object persists, marked
closing; no client is bound to it; its id is allocated.  This predicate is
preserved by every subsequent action. -/
structure ClosedGone (sid : Nat) (st : ServerState) : Prop where
  closing : ∃ m, st.store sid = some m ∧ m.isClosing = true
  unbound : ∀ ws, st.socketBindings ws ≠ some sid
  lt_next : sid < st.nextId

/-- The image-capability flag of session `sid` survives the passage from `st`
to `st'` unchanged (the session stays allocated). -/
def flagPres (sid : Nat) (st st' : ServerState) : Prop :=
  ∀ m, st.store sid = some m → ∃ m', st'.store sid = some m' ∧
    m'.currentModelSupportsImages = m.currentModelSupportsImages

/-- The session object installed by `createManagedSession` right after its
creation key has been registered. -/
def newSessionObj (cwd : String) (sessionFile : Option String) (key : String) :
    ManagedSession :=
  { cwd := cwd
    sessionFile := sessionFile
    clients := []
    isAgentRunning := false
    currentModelSupportsImages := none
    keys := [key]
    idleCleanupTimer := false
    isClosing := false
    rpcKilled := false }

@[simp] theorem clearTimer_clients (m : ManagedSession) :
    (clearIdleCleanupTimer m).clients = m.clients := rfl

@[simp] theorem clearTimer_isClosing (m : ManagedSession) :
    (clearIdleCleanupTimer m).isClosing = m.isClosing := rfl

@[simp] theorem clearTimer_keys (m : ManagedSession) :
    (clearIdleCleanupTimer m).keys = m.keys := rfl

@[simp] theorem clearTimer_running (m : ManagedSession) :
    (clearIdleCleanupTimer m).isAgentRunning = m.isAgentRunning := rfl

@[simp] theorem clearTimer_killed (m : ManagedSession) :
    (clearIdleCleanupTimer m).rpcKilled = m.rpcKilled := rfl

@[simp] theorem clearTimer_cap (m : ManagedSession) :
    (clearIdleCleanupTimer m).currentModelSupportsImages =
      m.currentModelSupportsImages := rfl

@[simp] theorem clearTimer_cwd (m : ManagedSession) :
    (clearIdleCleanupTimer m).cwd = m.cwd := rfl

@[simp] theorem clearTimer_timer (m : ManagedSession) :
    (clearIdleCleanupTimer m).idleCleanupTimer = false := rfl

@[simp] theorem cleanupIfIdle_clients (m : ManagedSession) :
    (cleanupIfIdle m).clients = m.clients := by
  unfold cleanupIfIdle; split_ifs <;> rfl

@[simp] theorem cleanupIfIdle_isClosing (m : ManagedSession) :
    (cleanupIfIdle m).isClosing = m.isClosing := by
  unfold cleanupIfIdle; split_ifs <;> rfl

@[simp] theorem cleanupIfIdle_keys (m : ManagedSession) :
    (cleanupIfIdle m).keys = m.keys := by
  unfold cleanupIfIdle; split_ifs <;> rfl

@[simp] theorem cleanupIfIdle_running (m : ManagedSession) :
    (cleanupIfIdle m).isAgentRunning = m.isAgentRunning := by
  unfold cleanupIfIdle; split_ifs <;> rfl

@[simp] theorem cleanupIfIdle_killed (m : ManagedSession) :
    (cleanupIfIdle m).rpcKilled = m.rpcKilled := by
  unfold cleanupIfIdle; split_ifs <;> rfl

@[simp] theorem cleanupIfIdle_cap (m : ManagedSession) :
    (cleanupIfIdle m).currentModelSupportsImages = m.currentModelSupportsImages := by
  unfold cleanupIfIdle; split_ifs <;> rfl

@[simp] theorem cleanupIfIdle_cwd (m : ManagedSession) :
    (cleanupIfIdle m).cwd = m.cwd := by
  unfold cleanupIfIdle; split_ifs <;> rfl

theorem updCap_flag_some {ev : Json} {b : Bool} (m : ManagedSession)
    (h : relevantModality ev = some b) :
    (updateSessionModelCapability m ev).currentModelSupportsImages = some b := by
  unfold relevantModality at h
  unfold updateSessionModelCapability
  split_ifs at h ⊢ <;> first
    | (rw [h])
    | simp at h

theorem updCap_flag_none {ev : Json} (m : ManagedSession)
    (h : relevantModality ev = none) :
    (updateSessionModelCapability m ev).currentModelSupportsImages =
      m.currentModelSupportsImages := by
  unfold relevantModality at h
  unfold updateSessionModelCapability
  split_ifs at h ⊢ <;> first
    | (rw [h])
    | rfl

@[simp] theorem updCap_clients (m : ManagedSession) (ev : Json) :
    (updateSessionModelCapability m ev).clients = m.clients := by
  unfold updateSessionModelCapability
  split_ifs <;> (first | rfl | (split <;> rfl))

@[simp] theorem updCap_isClosing (m : ManagedSession) (ev : Json) :
    (updateSessionModelCapability m ev).isClosing = m.isClosing := by
  unfold updateSessionModelCapability
  split_ifs <;> (first | rfl | (split <;> rfl))

@[simp] theorem updCap_keys (m : ManagedSession) (ev : Json) :
    (updateSessionModelCapability m ev).keys = m.keys := by
  unfold updateSessionModelCapability
  split_ifs <;> (first | rfl | (split <;> rfl))

@[simp] theorem updCap_running (m : ManagedSession) (ev : Json) :
    (updateSessionModelCapability m ev).isAgentRunning = m.isAgentRunning := by
  unfold updateSessionModelCapability
  split_ifs <;> (first | rfl | (split <;> rfl))

@[simp] theorem updCap_killed (m : ManagedSession) (ev : Json) :
    (updateSessionModelCapability m ev).rpcKilled = m.rpcKilled := by
  unfold updateSessionModelCapability
  split_ifs <;> (first | rfl | (split <;> rfl))

@[simp] theorem updCap_cwd (m : ManagedSession) (ev : Json) :
    (updateSessionModelCapability m ev).cwd = m.cwd := by
  unfold updateSessionModelCapability
  split_ifs <;> (first | rfl | (split <;> rfl))

@[simp] theorem updCap_timer (m : ManagedSession) (ev : Json) :
    (updateSessionModelCapability m ev).idleCleanupTimer = m.idleCleanupTimer := by
  unfold updateSessionModelCapability
  split_ifs <;> (first | rfl | (split <;> rfl))

@[simp] theorem setStore_store (st : ServerState) (sid : Nat) (m : ManagedSession)
    (i : Nat) : (setStore st sid m).store i = if i = sid then some m else st.store i := rfl

@[simp] theorem setStore_reg (st : ServerState) (sid : Nat) (m : ManagedSession) :
    (setStore st sid m).rpcSessions = st.rpcSessions := rfl

@[simp] theorem setStore_bindings (st : ServerState) (sid : Nat) (m : ManagedSession) :
    (setStore st sid m).socketBindings = st.socketBindings := rfl

@[simp] theorem setStore_nextId (st : ServerState) (sid : Nat) (m : ManagedSession) :
    (setStore st sid m).nextId = st.nextId := rfl

@[simp] theorem setStore_created (st : ServerState) (sid : Nat) (m : ManagedSession) :
    (setStore st sid m).created = st.created := rfl

theorem updStore_store (st : ServerState) (sid : Nat) (f : ManagedSession → ManagedSession)
    (i : Nat) :
    (updStore st sid f).store i =
      if i = sid then (st.store sid).map f else st.store i := by
  unfold updStore
  cases h : st.store sid with
  | none =>
    simp only [h, Option.map_none']
    by_cases hi : i = sid <;> simp [hi, h]
  | some m => simp [h]

@[simp] theorem updStore_reg (st : ServerState) (sid : Nat)
    (f : ManagedSession → ManagedSession) :
    (updStore st sid f).rpcSessions = st.rpcSessions := by
  unfold updStore; cases st.store sid <;> rfl

@[simp] theorem updStore_bindings (st : ServerState) (sid : Nat)
    (f : ManagedSession → ManagedSession) :
    (updStore st sid f).socketBindings = st.socketBindings := by
  unfold updStore; cases st.store sid <;> rfl

@[simp] theorem updStore_nextId (st : ServerState) (sid : Nat)
    (f : ManagedSession → ManagedSession) :
    (updStore st sid f).nextId = st.nextId := by
  unfold updStore; cases st.store sid <;> rfl

@[simp] theorem updStore_created (st : ServerState) (sid : Nat)
    (f : ManagedSession → ManagedSession) :
    (updStore st sid f).created = st.created := by
  unfold updStore; cases st.store sid <;> rfl

theorem detachSocket_none (st : ServerState) (ws : Client)
    (h : st.socketBindings ws = none) : detachSocket st ws = st := by
  unfold detachSocket; rw [h]

theorem detachSocket_spec (st : ServerState) (ws : Client) :
    detachSocket st ws = st ∨
    ∃ sid m, st.socketBindings ws = some sid ∧ st.store sid = some m ∧
      (∀ i, (detachSocket st ws).store i =
        if i = sid then some (cleanupIfIdle { m with clients := m.clients.erase ws })
        else st.store i) ∧
      (∀ w, (detachSocket st ws).socketBindings w =
        if w = ws then none else st.socketBindings w) := by
  unfold detachSocket
  split
  · exact Or.inl rfl
  · next sid hb =>
    split
    · exact Or.inl rfl
    · next m hs => exact Or.inr ⟨sid, m, hb, hs, fun i => rfl, fun w => rfl⟩

@[simp] theorem detachSocket_reg (st : ServerState) (ws : Client) :
    (detachSocket st ws).rpcSessions = st.rpcSessions := by
  unfold detachSocket
  split
  · rfl
  · split <;> rfl

@[simp] theorem detachSocket_nextId (st : ServerState) (ws : Client) :
    (detachSocket st ws).nextId = st.nextId := by
  unfold detachSocket
  split
  · rfl
  · split <;> rfl

@[simp] theorem detachSocket_created (st : ServerState) (ws : Client) :
    (detachSocket st ws).created = st.created := by
  unfold detachSocket
  split
  · rfl
  · split <;> rfl

theorem create_sid (st : ServerState) (cwd : String) (sf : Option String) :
    (createManagedSession st cwd sf).2 = st.nextId := by
  unfold createManagedSession registerManagedSessionKey
  simp

theorem create_store (st : ServerState) (cwd : String) (sf : Option String) (i : Nat) :
    ((createManagedSession st cwd sf).1).store i =
      if i = st.nextId then some (newSessionObj cwd sf (buildSessionKey cwd sf))
      else st.store i := by
  unfold createManagedSession registerManagedSessionKey newSessionObj
  simp only []
  split
  · next heq =>
    simp at heq
  · next m heq =>
    simp only [setStore_store] at heq ⊢
    simp at heq
    by_cases hi : i = st.nextId <;> simp [hi, ← heq]

theorem create_reg (st : ServerState) (cwd : String) (sf : Option String) (k : String) :
    ((createManagedSession st cwd sf).1).rpcSessions k =
      if k = buildSessionKey cwd sf then some st.nextId else st.rpcSessions k := by
  unfold createManagedSession registerManagedSessionKey
  simp only []
  split
  · next heq => simp at heq
  · next m heq => rfl

theorem create_nextId (st : ServerState) (cwd : String) (sf : Option String) :
    ((createManagedSession st cwd sf).1).nextId = st.nextId + 1 := by
  unfold createManagedSession registerManagedSessionKey
  simp only []
  split
  · next heq => simp at heq
  · next m heq => rfl

theorem create_created (st : ServerState) (cwd : String) (sf : Option String) :
    ((createManagedSession st cwd sf).1).created =
      st.created ++ [(buildSessionKey cwd sf, st.nextId)] := by
  unfold createManagedSession registerManagedSessionKey
  simp only []
  split
  · next heq => simp at heq
  · next m heq => rfl

theorem create_bindings (st : ServerState) (cwd : String) (sf : Option String) :
    ((createManagedSession st cwd sf).1).socketBindings = st.socketBindings := by
  unfold createManagedSession registerManagedSessionKey
  simp only []
  split
  · next heq => simp at heq
  · next m heq => rfl

theorem registerKey_reg {st : ServerState} {sid : Nat} {m : ManagedSession}
    (key : String) (h : st.store sid = some m) (k : String) :
    (registerManagedSessionKey st sid key).rpcSessions k =
      if k = key then some sid else st.rpcSessions k := by
  unfold registerManagedSessionKey
  rw [h]

theorem registerKey_store {st : ServerState} {sid : Nat} {m : ManagedSession}
    (key : String) (h : st.store sid = some m) (i : Nat) :
    (registerManagedSessionKey st sid key).store i =
      if i = sid then
        some { m with keys := if key ∈ m.keys then m.keys else m.keys ++ [key] }
      else st.store i := by
  unfold registerManagedSessionKey
  rw [h]

@[simp] theorem registerKey_bindings (st : ServerState) (sid : Nat) (key : String) :
    (registerManagedSessionKey st sid key).socketBindings = st.socketBindings := by
  unfold registerManagedSessionKey
  split <;> rfl

@[simp] theorem registerKey_nextId (st : ServerState) (sid : Nat) (key : String) :
    (registerManagedSessionKey st sid key).nextId = st.nextId := by
  unfold registerManagedSessionKey
  split <;> rfl

@[simp] theorem registerKey_created (st : ServerState) (sid : Nat) (key : String) :
    (registerManagedSessionKey st sid key).created = st.created := by
  unfold registerManagedSessionKey
  split <;> rfl

theorem unregister_reg {st : ServerState} {sid : Nat} {m : ManagedSession}
    (h : st.store sid = some m) (k : String) :
    (unregisterManagedSession st sid).rpcSessions k =
      if k ∈ m.keys ∧ st.rpcSessions k = some sid then none else st.rpcSessions k := by
  unfold unregisterManagedSession
  rw [h]

theorem unregister_store {st : ServerState} {sid : Nat} {m : ManagedSession}
    (h : st.store sid = some m) (i : Nat) :
    (unregisterManagedSession st sid).store i =
      if i = sid then some { m with keys := [] } else st.store i := by
  unfold unregisterManagedSession
  rw [h]

@[simp] theorem unregister_bindings (st : ServerState) (sid : Nat) :
    (unregisterManagedSession st sid).socketBindings = st.socketBindings := by
  unfold unregisterManagedSession
  split <;> rfl

@[simp] theorem unregister_nextId (st : ServerState) (sid : Nat) :
    (unregisterManagedSession st sid).nextId = st.nextId := by
  unfold unregisterManagedSession
  split <;> rfl

@[simp] theorem unregister_created (st : ServerState) (sid : Nat) :
    (unregisterManagedSession st sid).created = st.created := by
  unfold unregisterManagedSession
  split <;> rfl

theorem close_already {st : ServerState} {sid : Nat} {m : ManagedSession}
    (h : st.store sid = some m) (hc : m.isClosing = true) :
    closeManagedSession st sid = st := by
  unfold closeManagedSession
  split
  · rfl
  · next m' heq =>
    rw [h] at heq
    injection heq with he
    subst he
    rw [if_pos hc]

theorem close_store {st : ServerState} {sid : Nat} {m : ManagedSession}
    (h : st.store sid = some m) (hc : m.isClosing = false) (i : Nat) :
    (closeManagedSession st sid).store i =
      if i = sid then
        some { m with isClosing := true, idleCleanupTimer := false, keys := [],
                      rpcKilled := true }
      else st.store i := by
  unfold closeManagedSession
  split
  · next heq => rw [h] at heq; simp at heq
  · next m' heq =>
    rw [h] at heq
    injection heq with he
    subst he
    rw [if_neg (by simp [hc])]
    simp only []
    rw [updStore_store]
    rw [unregister_store (show (setStore st sid
      { m with isClosing := true, idleCleanupTimer := false }).store sid =
        some { m with isClosing := true, idleCleanupTimer := false } by simp)]
    by_cases hi : i = sid <;>
      simp [hi, unregister_store (show (setStore st sid
        { m with isClosing := true, idleCleanupTimer := false }).store sid =
          some { m with isClosing := true, idleCleanupTimer := false } by simp)]

theorem close_reg {st : ServerState} {sid : Nat} {m : ManagedSession}
    (h : st.store sid = some m) (hc : m.isClosing = false) (k : String) :
    (closeManagedSession st sid).rpcSessions k =
      if k ∈ m.keys ∧ st.rpcSessions k = some sid then none else st.rpcSessions k := by
  unfold closeManagedSession
  split
  · next heq => rw [h] at heq; simp at heq
  · next m' heq =>
    rw [h] at heq
    injection heq with he
    subst he
    rw [if_neg (by simp [hc])]
    simp only []
    rw [updStore_reg]
    rw [unregister_reg (show (setStore st sid
      { m with isClosing := true, idleCleanupTimer := false }).store sid =
        some { m with isClosing := true, idleCleanupTimer := false } by simp)]
    rfl

@[simp] theorem close_bindings (st : ServerState) (sid : Nat) :
    (closeManagedSession st sid).socketBindings = st.socketBindings := by
  unfold closeManagedSession
  split
  · rfl
  · split
    · rfl
    · rw [updStore_bindings, unregister_bindings, setStore_bindings]

@[simp] theorem close_nextId (st : ServerState) (sid : Nat) :
    (closeManagedSession st sid).nextId = st.nextId := by
  unfold closeManagedSession
  split
  · rfl
  · split
    · rfl
    · rw [updStore_nextId, unregister_nextId, setStore_nextId]

@[simp] theorem close_created (st : ServerState) (sid : Nat) :
    (closeManagedSession st sid).created = st.created := by
  unfold closeManagedSession
  split
  · rfl
  · split
    · rfl
    · rw [updStore_created, unregister_created, setStore_created]

theorem timerFire_no_pending {st : ServerState} {sid : Nat} {m : ManagedSession}
    (h : st.store sid = some m) (ht : m.idleCleanupTimer = false) :
    timerFire st sid = st := by
  unfold timerFire
  split
  · rfl
  · next m' heq =>
    rw [h] at heq
    injection heq with he
    subst he
    rw [if_pos (by simp [ht])]

theorem timerFire_blocked {st : ServerState} {sid : Nat} {m : ManagedSession}
    (h : st.store sid = some m) (ht : m.idleCleanupTimer = true)
    (hblock : m.isClosing = true ∨ 0 < m.clients.length ∨ m.isAgentRunning = true) :
    timerFire st sid = setStore st sid { m with idleCleanupTimer := false } := by
  unfold timerFire
  split
  · next heq => rw [h] at heq; simp at heq
  · next m' heq =>
    rw [h] at heq
    injection heq with he
    subst he
    rw [if_neg (by simp [ht])]
    simp only []
    rcases hblock with hb | hb | hb
    · simp [hb]
    · split <;> simp [hb]
    · simp [hb]

theorem timerFire_closes {st : ServerState} {sid : Nat} {m : ManagedSession}
    (h : st.store sid = some m) (ht : m.idleCleanupTimer = true)
    (hcl : m.isClosing = false) (hcli : m.clients = [])
    (hrun : m.isAgentRunning = false) :
    timerFire st sid =
      closeManagedSession (setStore st sid { m with idleCleanupTimer := false }) sid := by
  unfold timerFire
  split
  · next heq => rw [h] at heq; simp at heq
  · next m' heq =>
    rw [h] at heq
    injection heq with he
    subst he
    rw [if_neg (by simp [ht])]
    simp only []
    rw [if_neg (by simp [hcl]), if_neg (by simp [hcli]), if_neg (by simp [hrun])]

theorem rpcCommand_state (st : ServerState) (ws : Client) (cmd : Json) :
    (handleRpcCommand st ws cmd).1 = st := by
  unfold handleRpcCommand
  split
  · rfl
  · split
    · rfl
    · split <;> rfl

theorem procExit_outputs {st : ServerState} {sid : Nat} {m : ManagedSession}
    (code : Option Int) (h : st.store sid = some m) :
    (handleProcExit st sid code).2 = broadcastTo m.clients (.sessionEnded code) := by
  unfold handleProcExit
  rw [h]

theorem procExit_store {st : ServerState} {sid : Nat} {m : ManagedSession}
    (code : Option Int) (h : st.store sid = some m) (i : Nat) :
    ((handleProcExit st sid code).1).store i =
      if i = sid then
        some { m with isAgentRunning := false, isClosing := true,
                      idleCleanupTimer := false, keys := [], clients := [] }
      else st.store i := by
  unfold handleProcExit
  rw [h]
  simp only []
  rw [updStore_store]
  simp only []
  rw [unregister_store (show (setStore st sid
    { m with isAgentRunning := false, isClosing := true,
             idleCleanupTimer := false }).store sid =
      some { m with isAgentRunning := false, isClosing := true,
                    idleCleanupTimer := false } by simp)]
  by_cases hi : i = sid <;>
    simp [hi, unregister_store (show (setStore st sid
      { m with isAgentRunning := false, isClosing := true,
               idleCleanupTimer := false }).store sid =
        some { m with isAgentRunning := false, isClosing := true,
                      idleCleanupTimer := false } by simp)]

theorem procExit_reg {st : ServerState} {sid : Nat} {m : ManagedSession}
    (code : Option Int) (h : st.store sid = some m) (k : String) :
    ((handleProcExit st sid code).1).rpcSessions k =
      if k ∈ m.keys ∧ st.rpcSessions k = some sid then none else st.rpcSessions k := by
  unfold handleProcExit
  rw [h]
  simp only []
  rw [updStore_reg]
  simp only []
  rw [unregister_reg (show (setStore st sid
    { m with isAgentRunning := false, isClosing := true,
             idleCleanupTimer := false }).store sid =
      some { m with isAgentRunning := false, isClosing := true,
                    idleCleanupTimer := false } by simp)]
  rfl

theorem procExit_bindings {st : ServerState} {sid : Nat} {m : ManagedSession}
    (code : Option Int) (h : st.store sid = some m) (w : Client) :
    ((handleProcExit st sid code).1).socketBindings w =
      if w ∈ m.clients ∧ st.socketBindings w = some sid then none
      else st.socketBindings w := by
  unfold handleProcExit
  rw [h]
  simp only []
  rw [updStore_bindings]
  simp

theorem procExit_nextId {st : ServerState} {sid : Nat} (code : Option Int) :
    ((handleProcExit st sid code).1).nextId = st.nextId := by
  unfold handleProcExit
  split
  · rfl
  · rw [updStore_nextId]
    simp

theorem procExit_created {st : ServerState} {sid : Nat} (code : Option Int) :
    ((handleProcExit st sid code).1).created = st.created := by
  unfold handleProcExit
  split
  · rfl
  · rw [updStore_created]
    simp

theorem ginv_updStore {st : ServerState} {sid : Nat} {f : ManagedSession → ManagedSession}
    (hcl : ∀ m, (f m).clients = m.clients)
    (hcs : ∀ m, (f m).isClosing = m.isClosing)
    (hk : ∀ m, (f m).keys = m.keys)
    (h : GlobalInv st) : GlobalInv (updStore st sid f) := by
  constructor
  · intro ws sid' hb
    rw [updStore_bindings] at hb
    obtain ⟨m, hm, hmem, hcls⟩ := h.bound_mem ws sid' hb
    rw [updStore_store]
    by_cases hi : sid' = sid
    · subst hi
      exact ⟨f m, by simp [hm], by rw [hcl]; exact hmem, by rw [hcs]; exact hcls⟩
    · exact ⟨m, by simp [hi, hm], hmem, hcls⟩
  · intro sid' m' ws hm' hmem
    rw [updStore_bindings]
    rw [updStore_store] at hm'
    by_cases hi : sid' = sid
    · subst hi
      rcases hx : st.store sid' with _ | m
      · rw [hx] at hm'; simp at hm'
      · rw [hx] at hm'
        simp at hm'
        refine h.mem_bound sid' m ws hx ?_
        rw [← hcl m, hm']
        exact hmem
    · rw [if_neg hi] at hm'
      exact h.mem_bound sid' m' ws hm' hmem
  · intro sid' hge
    rw [updStore_nextId] at hge
    rw [updStore_store]
    by_cases hi : sid' = sid
    · subst hi
      rw [h.fresh sid' hge]
      simp
    · rw [if_neg hi]
      exact h.fresh sid' hge
  · intro k sid' hr
    rw [updStore_reg] at hr
    obtain ⟨m, hm, hkm⟩ := h.reg_keys k sid' hr
    rw [updStore_store]
    by_cases hi : sid' = sid
    · subst hi
      exact ⟨f m, by simp [hm], by rw [hk]; exact hkm⟩
    · exact ⟨m, by simp [hi, hm], hkm⟩
  · intro sid' m' hm'
    rw [updStore_store] at hm'
    by_cases hi : sid' = sid
    · subst hi
      rcases hx : st.store sid' with _ | m
      · rw [hx] at hm'; simp at hm'
      · rw [hx] at hm'
        simp at hm'
        rw [← hm', hcl m]
        exact h.nodup sid' m hx
    · rw [if_neg hi] at hm'
      exact h.nodup sid' m' hm'

theorem ginv_detachSocket {st : ServerState} (ws : Client)
    (h : GlobalInv st) : GlobalInv (detachSocket st ws) := by
  rcases detachSocket_spec st ws with hid | ⟨sid, m, hb, hs, hstore, hbind⟩
  · rw [hid]; exact h
  · constructor
    · intro w sid' hbw
      rw [hbind] at hbw
      by_cases hw : w = ws
      · rw [if_pos hw] at hbw; cases hbw
      · rw [if_neg hw] at hbw
        obtain ⟨m', hm', hmem, hcls⟩ := h.bound_mem w sid' hbw
        rw [hstore]
        by_cases hi : sid' = sid
        · subst hi
          rw [hm'] at hs
          injection hs with he
          subst he
          refine ⟨_, by rw [if_pos rfl], ?_, by simpa using hcls⟩
          simp only [cleanupIfIdle_clients]
          exact (List.mem_erase_of_ne hw).mpr hmem
        · rw [if_neg hi]
          exact ⟨m', hm', hmem, hcls⟩
    · intro sid' m' w hm' hmem
      rw [hbind]
      rw [hstore] at hm'
      by_cases hi : sid' = sid
      · subst hi
        rw [if_pos rfl] at hm'
        injection hm' with he
        subst he
        simp only [cleanupIfIdle_clients] at hmem
        have hwne : w ≠ ws := by
          intro hww
          subst hww
          exact (List.Nodup.not_mem_erase (h.nodup sid' m hs)) hmem
        rw [if_neg hwne]
        exact h.mem_bound sid' m w hs (List.mem_of_mem_erase hmem)
      · rw [if_neg hi] at hm'
        have hbw := h.mem_bound sid' m' w hm' hmem
        have hwne : w ≠ ws := by
          intro hww
          subst hww
          rw [hb] at hbw
          injection hbw with he
          exact hi he.symm
        rw [if_neg hwne]
        exact hbw
    · intro sid' hge
      rw [detachSocket_nextId] at hge
      rw [hstore]
      have : sid' ≠ sid := by
        intro he
        subst he
        rw [h.fresh sid' hge] at hs
        cases hs
      rw [if_neg this]
      exact h.fresh sid' hge
    · intro k sid' hr
      rw [detachSocket_reg] at hr
      obtain ⟨m', hm', hkm⟩ := h.reg_keys k sid' hr
      rw [hstore]
      by_cases hi : sid' = sid
      · subst hi
        rw [hm'] at hs
        injection hs with he
        subst he
        refine ⟨_, by rw [if_pos rfl], by simpa using hkm⟩
      · rw [if_neg hi]
        exact ⟨m', hm', hkm⟩
    · intro sid' m' hm'
      rw [hstore] at hm'
      by_cases hi : sid' = sid
      · subst hi
        rw [if_pos rfl] at hm'
        injection hm' with he
        subst he
        simp only [cleanupIfIdle_clients]
        exact List.Nodup.erase ws (h.nodup sid' m hs)
      · rw [if_neg hi] at hm'
        exact h.nodup sid' m' hm'

theorem ginv_registerKey {st : ServerState} (sid : Nat) (key : String)
    (h : GlobalInv st) : GlobalInv (registerManagedSessionKey st sid key) := by
  rcases hx : st.store sid with _ | m
  · have : registerManagedSessionKey st sid key = st := by
      unfold registerManagedSessionKey
      rw [hx]
    rw [this]
    exact h
  · have hlt : sid < st.nextId := by
      by_contra hge
      rw [h.fresh sid (Nat.le_of_not_lt hge)] at hx
      cases hx
    constructor
    · intro w sid' hbw
      rw [registerKey_bindings] at hbw
      obtain ⟨m', hm', hmem, hcls⟩ := h.bound_mem w sid' hbw
      rw [registerKey_store key hx]
      by_cases hi : sid' = sid
      · subst hi
        rw [hm'] at hx
        injection hx with he
        subst he
        refine ⟨{ m' with keys := if key ∈ m'.keys then m'.keys else m'.keys ++ [key] },
          by rw [if_pos rfl], hmem, hcls⟩
      · rw [if_neg hi]
        exact ⟨m', hm', hmem, hcls⟩
    · intro sid' m' w hm' hmem
      rw [registerKey_bindings]
      rw [registerKey_store key hx] at hm'
      by_cases hi : sid' = sid
      · subst hi
        rw [if_pos rfl] at hm'
        injection hm' with he
        subst he
        exact h.mem_bound sid' m w hx hmem
      · rw [if_neg hi] at hm'
        exact h.mem_bound sid' m' w hm' hmem
    · intro sid' hge
      rw [registerKey_nextId] at hge
      rw [registerKey_store key hx]
      have : sid' ≠ sid := by omega
      rw [if_neg this]
      exact h.fresh sid' hge
    · intro k sid' hr
      rw [registerKey_reg key hx] at hr
      rw [registerKey_store key hx]
      by_cases hk : k = key
      · rw [if_pos hk] at hr
        injection hr with he
        subst he
        refine ⟨_, by rw [if_pos rfl], ?_⟩
        by_cases hkm : key ∈ m.keys <;> simp [hkm, hk]
      · rw [if_neg hk] at hr
        obtain ⟨m', hm', hkm⟩ := h.reg_keys k sid' hr
        by_cases hi : sid' = sid
        · subst hi
          rw [hm'] at hx
          injection hx with he
          subst he
          refine ⟨_, by rw [if_pos rfl], ?_⟩
          by_cases hin : key ∈ m'.keys <;> simp [hin, hkm]
        · rw [if_neg hi]
          exact ⟨m', hm', hkm⟩
    · intro sid' m' hm'
      rw [registerKey_store key hx] at hm'
      by_cases hi : sid' = sid
      · subst hi
        rw [if_pos rfl] at hm'
        injection hm' with he
        subst he
        exact h.nodup sid' m hx
      · rw [if_neg hi] at hm'
        exact h.nodup sid' m' hm'

theorem ginv_create {st : ServerState} (cwd : String) (sf : Option String)
    (h : GlobalInv st) : GlobalInv ((createManagedSession st cwd sf).1) := by
  constructor
  · intro w sid' hbw
    rw [create_bindings] at hbw
    obtain ⟨m', hm', hmem, hcls⟩ := h.bound_mem w sid' hbw
    rw [create_store]
    have : sid' ≠ st.nextId := by
      intro he
      subst he
      rw [h.fresh _ (Nat.le_refl _)] at hm'
      cases hm'
    rw [if_neg this]
    exact ⟨m', hm', hmem, hcls⟩
  · intro sid' m' w hm' hmem
    rw [create_bindings]
    rw [create_store] at hm'
    by_cases hi : sid' = st.nextId
    · rw [if_pos hi] at hm'
      injection hm' with he
      subst he
      simp [newSessionObj] at hmem
    · rw [if_neg hi] at hm'
      exact h.mem_bound sid' m' w hm' hmem
  · intro sid' hge
    rw [create_nextId] at hge
    rw [create_store]
    have : sid' ≠ st.nextId := by omega
    rw [if_neg this]
    exact h.fresh sid' (by omega)
  · intro k sid' hr
    rw [create_reg] at hr
    rw [create_store]
    by_cases hk : k = buildSessionKey cwd sf
    · rw [if_pos hk] at hr
      injection hr with he
      subst he
      refine ⟨_, by rw [if_pos rfl], ?_⟩
      simp [newSessionObj, hk]
    · rw [if_neg hk] at hr
      obtain ⟨m', hm', hkm⟩ := h.reg_keys k sid' hr
      have : sid' ≠ st.nextId := by
        intro he
        subst he
        rw [h.fresh _ (Nat.le_refl _)] at hm'
        cases hm'
      rw [if_neg this]
      exact ⟨m', hm', hkm⟩
  · intro sid' m' hm'
    rw [create_store] at hm'
    by_cases hi : sid' = st.nextId
    · rw [if_pos hi] at hm'
      injection hm' with he
      subst he
      simp [newSessionObj]
    · rw [if_neg hi] at hm'
      exact h.nodup sid' m' hm'

theorem lookupLive_some {st : ServerState} {key : String} {sid : Nat}
    {m : ManagedSession} (hr : st.rpcSessions key = some sid)
    (hs : st.store sid = some m) (hc : m.isClosing = false) :
    lookupLive st key = some sid := by
  unfold lookupLive
  split
  · next sid' heq =>
    rw [hr] at heq
    injection heq with he
    subst he
    split
    · next m' heq2 =>
      rw [hs] at heq2
      injection heq2 with he2
      subst he2
      rw [if_neg (by simp [hc])]
    · next heq2 => rw [hs] at heq2; cases heq2
  · next heq => rw [hr] at heq; cases heq

theorem lookupLive_inv {st : ServerState} {key : String} {sid : Nat}
    (h : lookupLive st key = some sid) :
    st.rpcSessions key = some sid ∧
      ∃ m, st.store sid = some m ∧ m.isClosing = false := by
  unfold lookupLive at h
  split at h
  · next sid' heq =>
    split at h
    · next m' heq2 =>
      split at h
      · cases h
      · next hncl =>
        injection h with he
        subst he
        exact ⟨heq, m', heq2, by simpa using hncl⟩
    · cases h
  · cases h

theorem detach_binding_self {st : ServerState} (ws : Client)
    (h : GlobalInv st) : (detachSocket st ws).socketBindings ws = none := by
  unfold detachSocket
  split
  · next hb => exact hb
  · next sid hb =>
    split
    · next hs =>
      obtain ⟨m, hm, _, _⟩ := h.bound_mem ws sid hb
      rw [hm] at hs
      cases hs
    · next m hs => simp

theorem resolveOrCreate_some {st0 : ServerState} {rcwd : String}
    {rfile : Option String} {sid : Nat}
    (hll : lookupLive st0 (buildSessionKey rcwd rfile) = some sid) :
    resolveOrCreate st0 rcwd rfile = (st0, sid) := by
  unfold resolveOrCreate
  rw [hll]

theorem resolveOrCreate_none {st0 : ServerState} {rcwd : String}
    {rfile : Option String}
    (hll : lookupLive st0 (buildSessionKey rcwd rfile) = none) :
    resolveOrCreate st0 rcwd rfile = createManagedSession st0 rcwd rfile := by
  unfold resolveOrCreate
  rw [hll]

theorem attachProceed_eq (st : ServerState) (ws : Client) (rcwd : String)
    (rfile : Option String) :
    attachProceed st ws rcwd rfile =
      joinBind (resolveOrCreate (detachSocket st ws) rcwd rfile).1 ws
        (resolveOrCreate (detachSocket st ws) rcwd rfile).2 := rfl

@[simp] theorem joinFn_clients (ws : Client) (m : ManagedSession) :
    (joinFn ws m).clients =
      if ws ∈ m.clients then m.clients else m.clients ++ [ws] := rfl

@[simp] theorem joinFn_isClosing (ws : Client) (m : ManagedSession) :
    (joinFn ws m).isClosing = m.isClosing := rfl

@[simp] theorem joinFn_keys (ws : Client) (m : ManagedSession) :
    (joinFn ws m).keys = m.keys := rfl

@[simp] theorem joinFn_timer (ws : Client) (m : ManagedSession) :
    (joinFn ws m).idleCleanupTimer = false := rfl

@[simp] theorem joinFn_killed (ws : Client) (m : ManagedSession) :
    (joinFn ws m).rpcKilled = m.rpcKilled := rfl

@[simp] theorem joinBind_store (st1 : ServerState) (ws : Client) (sid : Nat) (i : Nat) :
    (joinBind st1 ws sid).store i = (updStore st1 sid (joinFn ws)).store i := rfl

@[simp] theorem joinBind_reg (st1 : ServerState) (ws : Client) (sid : Nat) :
    (joinBind st1 ws sid).rpcSessions = st1.rpcSessions := by
  unfold joinBind
  rw [updStore_reg]

@[simp] theorem joinBind_nextId (st1 : ServerState) (ws : Client) (sid : Nat) :
    (joinBind st1 ws sid).nextId = st1.nextId := by
  unfold joinBind
  rw [updStore_nextId]

@[simp] theorem joinBind_created (st1 : ServerState) (ws : Client) (sid : Nat) :
    (joinBind st1 ws sid).created = st1.created := by
  unfold joinBind
  rw [updStore_created]

theorem joinBind_bindings (st1 : ServerState) (ws : Client) (sid : Nat) (w : Client) :
    (joinBind st1 ws sid).socketBindings w =
      if w = ws then some sid else st1.socketBindings w := by
  unfold joinBind
  simp only []
  rw [updStore_bindings]

theorem ginv_joinBind {st1 : ServerState} {ws : Client} {sid : Nat}
    {m1 : ManagedSession} (h1 : GlobalInv st1)
    (hwn : st1.socketBindings ws = none)
    (hm1 : st1.store sid = some m1) (hcl1 : m1.isClosing = false) :
    GlobalInv (joinBind st1 ws sid) := by
  constructor
  · intro w sid' hbw
    rw [joinBind_bindings] at hbw
    by_cases hw : w = ws
    · rw [if_pos hw] at hbw
      injection hbw with he
      subst he
      subst hw
      rw [joinBind_store, updStore_store, if_pos rfl, hm1, Option.map_some']
      refine ⟨_, rfl, ?_, by simpa using hcl1⟩
      rw [joinFn_clients]
      by_cases hin : w ∈ m1.clients
      · rw [if_pos hin]; exact hin
      · rw [if_neg hin]; exact List.mem_append_right _ (by simp)
    · rw [if_neg hw] at hbw
      obtain ⟨m', hm', hmem, hcls⟩ := h1.bound_mem w sid' hbw
      rw [joinBind_store, updStore_store]
      by_cases hi : sid' = sid
      · subst hi
        rw [if_pos rfl, hm', Option.map_some']
        refine ⟨_, rfl, ?_, by simpa using hcls⟩
        rw [joinFn_clients]
        by_cases hin : ws ∈ m'.clients
        · rw [if_pos hin]; exact hmem
        · rw [if_neg hin]; exact List.mem_append_left _ hmem
      · rw [if_neg hi]
        exact ⟨m', hm', hmem, hcls⟩
  · intro sid' m' w hm' hmem
    rw [joinBind_store, updStore_store] at hm'
    rw [joinBind_bindings]
    by_cases hi : sid' = sid
    · subst hi
      rw [if_pos rfl, hm1, Option.map_some'] at hm'
      injection hm' with he
      subst he
      rw [joinFn_clients] at hmem
      by_cases hw : w = ws
      · rw [if_pos hw]
      · rw [if_neg hw]
        have hmem1 : w ∈ m1.clients := by
          by_cases hin : ws ∈ m1.clients
          · rw [if_pos hin] at hmem; exact hmem
          · rw [if_neg hin] at hmem
            rcases List.mem_append.mp hmem with hmm | hmm
            · exact hmm
            · simp at hmm; exact absurd hmm hw
        exact h1.mem_bound sid' m1 w hm1 hmem1
    · rw [if_neg hi] at hm'
      have hbw := h1.mem_bound sid' m' w hm' hmem
      have hw : w ≠ ws := by
        intro hww
        subst hww
        rw [hwn] at hbw
        cases hbw
      rw [if_neg hw]
      exact hbw
  · intro sid' hge
    rw [joinBind_nextId] at hge
    have hn := h1.fresh sid' hge
    rw [joinBind_store, updStore_store]
    by_cases hi : sid' = sid
    · subst hi
      rw [hn] at hm1
      cases hm1
    · rw [if_neg hi]
      exact hn
  · intro k sid' hr
    rw [joinBind_reg] at hr
    obtain ⟨m', hm', hkm⟩ := h1.reg_keys k sid' hr
    rw [joinBind_store, updStore_store]
    by_cases hi : sid' = sid
    · subst hi
      rw [if_pos rfl, hm', Option.map_some']
      exact ⟨_, rfl, by simpa using hkm⟩
    · rw [if_neg hi]
      exact ⟨m', hm', hkm⟩
  · intro sid' m' hm'
    rw [joinBind_store, updStore_store] at hm'
    by_cases hi : sid' = sid
    · subst hi
      rw [if_pos rfl, hm1, Option.map_some'] at hm'
      injection hm' with he
      subst he
      rw [joinFn_clients]
      have hnd := h1.nodup sid' m1 hm1
      by_cases hin : ws ∈ m1.clients
      · rw [if_pos hin]; exact hnd
      · rw [if_neg hin]
        rw [List.nodup_append]
        refine ⟨hnd, List.nodup_singleton ws, ?_⟩
        intro a ha hb
        simp at hb
        subst hb
        exact hin ha
    · rw [if_neg hi] at hm'
      exact h1.nodup sid' m' hm'

theorem ginv_attachProceed {st : ServerState} (ws : Client) (rcwd : String)
    (rfile : Option String) (h : GlobalInv st) :
    GlobalInv (attachProceed st ws rcwd rfile) := by
  have h0 : GlobalInv (detachSocket st ws) := ginv_detachSocket ws h
  have hwn : (detachSocket st ws).socketBindings ws = none :=
    detach_binding_self ws h
  rw [attachProceed_eq]
  rcases hll : lookupLive (detachSocket st ws) (buildSessionKey rcwd rfile)
    with _ | sid
  · rw [resolveOrCreate_none hll]
    have hb' :
        ((createManagedSession (detachSocket st ws) rcwd rfile).1).socketBindings ws =
          none := by
      rw [create_bindings]
      exact hwn
    have hs' :
        ((createManagedSession (detachSocket st ws) rcwd rfile).1).store
            ((createManagedSession (detachSocket st ws) rcwd rfile).2) =
          some (newSessionObj rcwd rfile (buildSessionKey rcwd rfile)) := by
      rw [create_sid, create_store, if_pos rfl]
    exact ginv_joinBind (ginv_create rcwd rfile h0) hb' hs' rfl
  · rw [resolveOrCreate_some hll]
    obtain ⟨hr0, m0, hm0, hcl0⟩ := lookupLive_inv hll
    exact ginv_joinBind h0 hwn hm0 hcl0

theorem ginv_handleStartSession {st : ServerState} (ws : Client) (cwd : String)
    (sf : Option String) (h : GlobalInv st) :
    GlobalInv (handleStartSession st ws cwd sf) := by
  unfold handleStartSession
  split
  · split
    · exact ginv_updStore (fun m => rfl) (fun m => rfl) (fun m => rfl) h
    · exact h
  · exact ginv_attachProceed ws (msgCwd cwd) (normalizeSessionFile sf) h

theorem ginv_registerDiscovered {st : ServerState} (sid : Nat) (ev : Json)
    (h : GlobalInv st) : GlobalInv (registerDiscoveredSessionKey st sid ev) := by
  unfold registerDiscoveredSessionKey
  split
  · exact h
  · split
    · split
      · split
        · exact h
        · exact ginv_registerKey sid _ h
      · exact h
    · exact h

theorem ginv_agentStartStep {st : ServerState} (sid : Nat) (ev : Json)
    (h : GlobalInv st) : GlobalInv (agentStartStep st sid ev) := by
  unfold agentStartStep
  split
  · exact ginv_updStore (fun m => rfl) (fun m => rfl) (fun m => rfl) h
  · exact h

theorem ginv_agentEndStep {st : ServerState} (sid : Nat) (ev : Json)
    (h : GlobalInv st) : GlobalInv (agentEndStep st sid ev) := by
  unfold agentEndStep
  split
  · exact ginv_updStore (fun m => by simp) (fun m => by simp) (fun m => by simp) h
  · exact h

theorem ginv_agentEventState {st : ServerState} (sid : Nat) (ev : Json)
    (h : GlobalInv st) : GlobalInv (agentEventState st sid ev) := by
  unfold agentEventState
  exact ginv_registerDiscovered sid ev
    (ginv_updStore (fun m => by simp) (fun m => by simp) (fun m => by simp)
      (ginv_agentEndStep sid ev (ginv_agentStartStep sid ev h)))

theorem handleAgentEvent_state (st : ServerState) (sid : Nat) (ev : Json) :
    (handleAgentEvent st sid ev).1 = st ∨
      (handleAgentEvent st sid ev).1 = agentEventState st sid ev := by
  unfold handleAgentEvent
  split
  · exact Or.inl rfl
  · simp only []
    split
    · exact Or.inr rfl
    · exact Or.inr rfl

theorem ginv_handleAgentEvent {st : ServerState} (sid : Nat) (ev : Json)
    (h : GlobalInv st) : GlobalInv (handleAgentEvent st sid ev).1 := by
  rcases handleAgentEvent_state st sid ev with he | he <;> rw [he]
  · exact h
  · exact ginv_agentEventState sid ev h

theorem ginv_handleProcExit {st : ServerState} (sid : Nat) (code : Option Int)
    (h : GlobalInv st) : GlobalInv (handleProcExit st sid code).1 := by
  rcases hx : st.store sid with _ | m
  · have : (handleProcExit st sid code).1 = st := by
      unfold handleProcExit
      rw [hx]
    rw [this]
    exact h
  · constructor
    · intro w sid' hbw
      rw [procExit_bindings code hx] at hbw
      split at hbw
      · cases hbw
      · next hns =>
        obtain ⟨m', hm', hmem, hcls⟩ := h.bound_mem w sid' hbw
        rw [procExit_store code hx]
        by_cases hi : sid' = sid
        · exfalso
          subst hi
          rw [hm'] at hx
          injection hx with he
          subst he
          exact hns ⟨hmem, hbw⟩
        · rw [if_neg hi]
          exact ⟨m', hm', hmem, hcls⟩
    · intro sid' m' w hm' hmem
      rw [procExit_store code hx] at hm'
      rw [procExit_bindings code hx]
      by_cases hi : sid' = sid
      · subst hi
        rw [if_pos rfl] at hm'
        injection hm' with he
        subst he
        simp at hmem
      · rw [if_neg hi] at hm'
        have hbw := h.mem_bound sid' m' w hm' hmem
        rw [if_neg ?_]
        · exact hbw
        · intro hcon
          rw [hbw] at hcon
          injection hcon.2 with he
          exact hi he
    · intro sid' hge
      rw [procExit_nextId code] at hge
      rw [procExit_store code hx]
      have hn := h.fresh sid' hge
      by_cases hi : sid' = sid
      · subst hi
        rw [hn] at hx
        cases hx
      · rw [if_neg hi]
        exact hn
    · intro k sid' hr
      rw [procExit_reg code hx] at hr
      split at hr
      · cases hr
      · next hnk =>
        obtain ⟨m', hm', hkm⟩ := h.reg_keys k sid' hr
        rw [procExit_store code hx]
        by_cases hi : sid' = sid
        · exfalso
          subst hi
          rw [hm'] at hx
          injection hx with he
          subst he
          exact hnk ⟨hkm, hr⟩
        · rw [if_neg hi]
          exact ⟨m', hm', hkm⟩
    · intro sid' m' hm'
      rw [procExit_store code hx] at hm'
      by_cases hi : sid' = sid
      · subst hi
        rw [if_pos rfl] at hm'
        injection hm' with he
        subst he
        simp
      · rw [if_neg hi] at hm'
        exact h.nodup sid' m' hm'

theorem ginv_setStore_timer {st : ServerState} {sid : Nat} {m : ManagedSession}
    (hx : st.store sid = some m) (b : Bool)
    (h : GlobalInv st) : GlobalInv (setStore st sid { m with idleCleanupTimer := b }) := by
  have : setStore st sid { m with idleCleanupTimer := b } =
      updStore st sid (fun mm => { mm with idleCleanupTimer := b }) := by
    unfold updStore
    rw [hx]
  rw [this]
  exact ginv_updStore (fun mm => rfl) (fun mm => rfl) (fun mm => rfl) h

theorem ginv_closeManagedSession {st : ServerState} (sid : Nat)
    (hnb : ∀ w, st.socketBindings w ≠ some sid)
    (h : GlobalInv st) : GlobalInv (closeManagedSession st sid) := by
  rcases hx : st.store sid with _ | m
  · have : closeManagedSession st sid = st := by
      unfold closeManagedSession
      rw [hx]
    rw [this]
    exact h
  · rcases hcl : m.isClosing with _ | _
    · constructor
      · intro w sid' hbw
        rw [close_bindings] at hbw
        obtain ⟨m', hm', hmem, hcls⟩ := h.bound_mem w sid' hbw
        rw [close_store hx hcl]
        by_cases hi : sid' = sid
        · exact absurd hbw (hi ▸ hnb w)
        · rw [if_neg hi]
          exact ⟨m', hm', hmem, hcls⟩
      · intro sid' m' w hm' hmem
        rw [close_bindings]
        rw [close_store hx hcl] at hm'
        by_cases hi : sid' = sid
        · subst hi
          rw [if_pos rfl] at hm'
          injection hm' with he
          subst he
          simp only [] at hmem
          have hbw := h.mem_bound sid' m w hx hmem
          exact absurd hbw (hnb w)
        · rw [if_neg hi] at hm'
          exact h.mem_bound sid' m' w hm' hmem
      · intro sid' hge
        rw [close_nextId] at hge
        have hn := h.fresh sid' hge
        rw [close_store hx hcl]
        by_cases hi : sid' = sid
        · subst hi
          rw [hn] at hx
          cases hx
        · rw [if_neg hi]
          exact hn
      · intro k sid' hr
        rw [close_reg hx hcl] at hr
        split at hr
        · cases hr
        · next hnk =>
          obtain ⟨m', hm', hkm⟩ := h.reg_keys k sid' hr
          rw [close_store hx hcl]
          by_cases hi : sid' = sid
          · exfalso
            subst hi
            rw [hm'] at hx
            injection hx with he
            subst he
            exact hnk ⟨hkm, hr⟩
          · rw [if_neg hi]
            exact ⟨m', hm', hkm⟩
      · intro sid' m' hm'
        rw [close_store hx hcl] at hm'
        by_cases hi : sid' = sid
        · subst hi
          rw [if_pos rfl] at hm'
          injection hm' with he
          subst he
          exact h.nodup sid' m hx
        · rw [if_neg hi] at hm'
          exact h.nodup sid' m' hm'
    · rw [close_already hx hcl]
      exact h

theorem ginv_timerFire {st : ServerState} (sid : Nat)
    (h : GlobalInv st) : GlobalInv (timerFire st sid) := by
  rcases hx : st.store sid with _ | m
  · have : timerFire st sid = st := by
      unfold timerFire
      rw [hx]
    rw [this]
    exact h
  · rcases ht : m.idleCleanupTimer with _ | _
    · rw [timerFire_no_pending hx ht]
      exact h
    · by_cases hblock : m.isClosing = true ∨ 0 < m.clients.length ∨ m.isAgentRunning = true
      · rw [timerFire_blocked hx ht hblock]
        exact ginv_setStore_timer hx false h
      · push_neg at hblock
        obtain ⟨hcl, hlen, hrun⟩ := hblock
        have hcli : m.clients = [] := by
          cases hq : m.clients with
          | nil => rfl
          | cons a l => rw [hq] at hlen; simp at hlen
        rw [timerFire_closes hx ht (by simpa using hcl) hcli (by simpa using hrun)]
        have h0 : GlobalInv (setStore st sid { m with idleCleanupTimer := false }) :=
          ginv_setStore_timer hx false h
        apply ginv_closeManagedSession sid ?_ h0
        intro w hcon
        rw [setStore_bindings] at hcon
        obtain ⟨m', hm', hmem, _⟩ := h.bound_mem w sid hcon
        rw [hm'] at hx
        injection hx with he
        subst he
        rw [hcli] at hmem
        cases hmem

theorem ginv_step {st : ServerState} (l : Label)
    (h : GlobalInv st) : GlobalInv (step st l).1 := by
  cases l with
  | startSession ws cwd sf => exact ginv_handleStartSession ws cwd sf h
  | detachSession ws => exact ginv_detachSocket ws h
  | rpcCommand ws cmd => rw [show (step st (.rpcCommand ws cmd)).1 =
      (handleRpcCommand st ws cmd).1 from rfl, rpcCommand_state]; exact h
  | ping ws => exact h
  | agentEvent sid ev => exact ginv_handleAgentEvent sid ev h
  | agentError sid msg => exact h
  | procExit sid code => exact ginv_handleProcExit sid code h
  | timerFire sid => exact ginv_timerFire sid h

theorem ginv_init : GlobalInv initState := by
  constructor
  · intro ws sid hbw; cases hbw
  · intro sid m ws hm; cases hm
  · intro sid hge; rfl
  · intro k sid hr; cases hr
  · intro sid m hm; cases hm

theorem ginv_run (labels : List Label) : ∀ {st : ServerState}, GlobalInv st →
    GlobalInv (run st labels) := by
  induction labels with
  | nil => intro st h; exact h
  | cons l rest ih =>
    intro st h
    exact ih (ginv_step l h)

theorem countCreatedFor_eq (k : String) {st st' : ServerState}
    (h : st'.created = st.created) : countCreatedFor k st' = countCreatedFor k st := by
  unfold countCreatedFor
  rw [h]

theorem countCreatedFor_zero {k : String} {st : ServerState}
    (h : countCreatedFor k st = 0) : ∀ p ∈ st.created, p.1 ≠ k := by
  unfold countCreatedFor at h
  rw [List.length_eq_zero] at h
  intro p hp hk
  have : p ∈ st.created.filter (fun q => q.1 == k) :=
    List.mem_filter.mpr ⟨hp, by simp [hk]⟩
  rw [h] at this
  cases this

theorem keyInv_of_eqv {st st' : ServerState} (k : String)
    (hcr : st'.created = st.created)
    (hrg : st'.rpcSessions = st.rpcSessions)
    (hnx : st'.nextId = st.nextId)
    (hstN : ∀ i, st.store i = none ↔ st'.store i = none)
    (hstS : ∀ i m', st'.store i = some m' →
      ∃ m, st.store i = some m ∧ m'.isClosing = m.isClosing ∧ m'.keys = m.keys)
    (h : KeyInv k st) : KeyInv k st' := by
  constructor
  · intro p hp hk
    rw [hcr] at hp
    rw [hrg]
    exact h.created_reg p hp hk
  · intro sid hr
    rw [hrg] at hr
    obtain ⟨m, hm, hcl⟩ := h.reg_live sid hr
    rcases hx : st'.store sid with _ | m'
    · rw [← hstN sid] at hx
      rw [hx] at hm
      cases hm
    · obtain ⟨mm, hmm, hcl', _⟩ := hstS sid m' hx
      rw [hmm] at hm
      injection hm with he
      subst he
      exact ⟨m', rfl, by rw [hcl']; exact hcl⟩
  · intro hr
    rw [hrg] at hr
    rw [countCreatedFor_eq k hcr]
    exact h.none_no_created hr
  · intro sid m' hm' hk
    rw [hrg]
    obtain ⟨m, hm, _, hkeys⟩ := hstS sid m' hm'
    exact h.keys_reg sid m hm (hkeys ▸ hk)
  · rw [countCreatedFor_eq k hcr]
    exact h.count_le
  · intro sid hge
    rw [hnx] at hge
    rw [← hstN sid]
    exact h.fresh sid hge

theorem keyInv_updStore {st : ServerState} {sid : Nat}
    {f : ManagedSession → ManagedSession} (k : String)
    (hcs : ∀ m, (f m).isClosing = m.isClosing)
    (hk : ∀ m, (f m).keys = m.keys)
    (h : KeyInv k st) : KeyInv k (updStore st sid f) := by
  refine keyInv_of_eqv k (updStore_created st sid f) (updStore_reg st sid f)
    (updStore_nextId st sid f) ?_ ?_ h
  · intro i
    rw [updStore_store]
    by_cases hi : i = sid
    · subst hi
      rcases hx : st.store i with _ | m <;> simp [hx]
    · rw [if_neg hi]
  · intro i m' hm'
    rw [updStore_store] at hm'
    by_cases hi : i = sid
    · subst hi
      rw [if_pos rfl] at hm'
      rcases hx : st.store i with _ | m
      · rw [hx] at hm'; simp at hm'
      · rw [hx, Option.map_some'] at hm'
        injection hm' with he
        exact ⟨m, rfl, by rw [← he, hcs], by rw [← he, hk]⟩
    · rw [if_neg hi] at hm'
      exact ⟨m', hm', rfl, rfl⟩

theorem keyInv_detachSocket {st : ServerState} (ws : Client) (k : String)
    (h : KeyInv k st) : KeyInv k (detachSocket st ws) := by
  rcases detachSocket_spec st ws with hid | ⟨sid, m, hb, hs, hstore, hbind⟩
  · rw [hid]; exact h
  · refine keyInv_of_eqv k (detachSocket_created st ws) (detachSocket_reg st ws)
      (detachSocket_nextId st ws) ?_ ?_ h
    · intro i
      rw [hstore]
      by_cases hi : i = sid
      · subst hi
        rw [if_pos rfl, hs]
        simp
      · rw [if_neg hi]
    · intro i m' hm'
      rw [hstore] at hm'
      by_cases hi : i = sid
      · subst hi
        rw [if_pos rfl] at hm'
        injection hm' with he
        exact ⟨m, hs, by rw [← he]; simp, by rw [← he]; simp⟩
      · rw [if_neg hi] at hm'
        exact ⟨m', hm', rfl, rfl⟩

theorem keyInv_joinBind {st : ServerState} (ws : Client) (sid : Nat) (k : String)
    (h : KeyInv k st) : KeyInv k (joinBind st ws sid) := by
  refine keyInv_of_eqv k (joinBind_created st ws sid) (joinBind_reg st ws sid)
    (joinBind_nextId st ws sid) ?_ ?_ h
  · intro i
    rw [joinBind_store, updStore_store]
    by_cases hi : i = sid
    · subst hi
      rcases hx : st.store i with _ | m <;> simp [hx]
    · rw [if_neg hi]
  · intro i m' hm'
    rw [joinBind_store, updStore_store] at hm'
    by_cases hi : i = sid
    · subst hi
      rw [if_pos rfl] at hm'
      rcases hx : st.store i with _ | m
      · rw [hx] at hm'; simp at hm'
      · rw [hx, Option.map_some'] at hm'
        injection hm' with he
        exact ⟨m, rfl, by rw [← he]; simp, by rw [← he]; simp⟩
    · rw [if_neg hi] at hm'
      exact ⟨m', hm', rfl, rfl⟩

theorem count_created_append {st st' : ServerState} (k K : String) (nid : Nat)
    (h : st'.created = st.created ++ [(K, nid)]) :
    countCreatedFor k st' = countCreatedFor k st + (if K = k then 1 else 0) := by
  unfold countCreatedFor
  rw [h, List.filter_append, List.length_append]
  congr 1
  by_cases hk : K = k <;> simp [hk]

theorem keyInv_create {st : ServerState} {k : String} (cwd : String)
    (sf : Option String)
    (hok : buildSessionKey cwd sf = k → st.rpcSessions k = none)
    (h : KeyInv k st) : KeyInv k ((createManagedSession st cwd sf).1) := by
  have hcnt := @count_created_append st ((createManagedSession st cwd sf).1)
    k (buildSessionKey cwd sf) st.nextId (create_created st cwd sf)
  constructor
  · intro p hp hk
    rw [create_created] at hp
    rw [create_reg]
    rcases List.mem_append.mp hp with hin | hin
    · have hr := h.created_reg p hin hk
      have hkK : k ≠ buildSessionKey cwd sf := by
        intro he
        rw [hok he.symm] at hr
        cases hr
      rw [if_neg hkK]
      exact hr
    · simp at hin
      subst hin
      simp at hk
      simp [hk]
  · intro sid hr
    rw [create_reg] at hr
    by_cases hkK : k = buildSessionKey cwd sf
    · rw [if_pos hkK] at hr
      injection hr with he
      subst he
      rw [create_store, if_pos rfl]
      exact ⟨_, rfl, rfl⟩
    · rw [if_neg hkK] at hr
      obtain ⟨m, hm, hcl⟩ := h.reg_live sid hr
      refine ⟨m, ?_, hcl⟩
      rw [create_store, if_neg ?_]
      · exact hm
      · intro he
        subst he
        rw [h.fresh _ (Nat.le_refl _)] at hm
        cases hm
  · intro hr
    rw [create_reg] at hr
    by_cases hkK : k = buildSessionKey cwd sf
    · rw [if_pos hkK] at hr
      cases hr
    · rw [if_neg hkK] at hr
      rw [hcnt, h.none_no_created hr, if_neg (fun he => hkK he.symm)]
  · intro sid m hm hkm
    rw [create_store] at hm
    rw [create_reg]
    by_cases hi : sid = st.nextId
    · rw [if_pos hi] at hm
      injection hm with he
      subst he
      simp only [newSessionObj] at hkm
      simp at hkm
      rw [if_pos hkm, hi]
    · rw [if_neg hi] at hm
      have hr := h.keys_reg sid m hm hkm
      have hkK : k ≠ buildSessionKey cwd sf := by
        intro he
        rw [hok he.symm] at hr
        cases hr
      rw [if_neg hkK]
      exact hr
  · rw [hcnt]
    by_cases hkK : buildSessionKey cwd sf = k
    · rw [h.none_no_created (hok hkK), if_pos hkK]
    · rw [if_neg hkK]
      have := h.count_le
      omega
  · intro sid hge
    rw [create_nextId] at hge
    rw [create_store]
    rw [if_neg (by omega)]
    exact h.fresh sid (by omega)

theorem keyInv_attachProceed {st : ServerState} (ws : Client) (rcwd : String)
    (rfile : Option String) (k : String)
    (h : KeyInv k st) : KeyInv k (attachProceed st ws rcwd rfile) := by
  have h0 : KeyInv k (detachSocket st ws) := keyInv_detachSocket ws k h
  rw [attachProceed_eq]
  rcases hll : lookupLive (detachSocket st ws) (buildSessionKey rcwd rfile)
    with _ | sid
  · rw [resolveOrCreate_none hll]
    apply keyInv_joinBind
    apply keyInv_create rcwd rfile ?_ h0
    intro hkK
    rcases hr : (detachSocket st ws).rpcSessions k with _ | sid'
    · rfl
    · exfalso
      obtain ⟨m, hm, hcl⟩ := h0.reg_live sid' hr
      have := lookupLive_some hr hm hcl
      rw [hkK, this] at hll
      cases hll
  · rw [resolveOrCreate_some hll]
    exact keyInv_joinBind ws sid k h0

theorem keyInv_handleStartSession {st : ServerState} (ws : Client) (cwd : String)
    (sf : Option String) (k : String)
    (h : KeyInv k st) : KeyInv k (handleStartSession st ws cwd sf) := by
  unfold handleStartSession
  split
  · split
    · exact keyInv_updStore k (fun m => rfl) (fun m => rfl) h
    · exact h
  · exact keyInv_attachProceed ws (msgCwd cwd) (normalizeSessionFile sf) k h

theorem keyInv_step {st : ServerState} {l : Label} (k : String)
    (hl : clientLabel l = true)
    (h : KeyInv k st) : KeyInv k (step st l).1 := by
  cases l with
  | startSession ws cwd sf => exact keyInv_handleStartSession ws cwd sf k h
  | detachSession ws => exact keyInv_detachSocket ws k h
  | rpcCommand ws cmd => rw [show (step st (.rpcCommand ws cmd)).1 =
      (handleRpcCommand st ws cmd).1 from rfl, rpcCommand_state]; exact h
  | ping ws => exact h
  | agentEvent sid ev => cases hl
  | agentError sid msg => cases hl
  | procExit sid code => cases hl
  | timerFire sid => cases hl

theorem keyInv_init (k : String) : KeyInv k initState := by
  constructor
  · intro p hp _; cases hp
  · intro sid hr; cases hr
  · intro _; rfl
  · intro sid m hm _; cases hm
  · exact Nat.zero_le 1
  · intro sid _; rfl

theorem keyInv_run (k : String) (labels : List Label)
    (hl : ∀ l ∈ labels, clientLabel l = true) :
    ∀ {st : ServerState}, KeyInv k st → KeyInv k (run st labels) := by
  induction labels with
  | nil => intro st h; exact h
  | cons l rest ih =>
    intro st h
    exact ih (fun l' hl' => hl l' (by simp [hl'])) (keyInv_step k (hl l (by simp)) h)

theorem handleAgentEvent_state_some {st : ServerState} {sid : Nat} {ev : Json}
    {m : ManagedSession} (hm : st.store sid = some m) :
    (handleAgentEvent st sid ev).1 = agentEventState st sid ev := by
  unfold handleAgentEvent
  split
  · next heq => rw [heq] at hm; cases hm
  · simp only []
    split <;> rfl

@[simp] theorem registerDiscovered_bindings (st : ServerState) (sid : Nat) (ev : Json) :
    (registerDiscoveredSessionKey st sid ev).socketBindings = st.socketBindings := by
  unfold registerDiscoveredSessionKey
  split
  · rfl
  · split
    · split
      · split
        · rfl
        · rw [registerKey_bindings]
      · rfl
    · rfl

@[simp] theorem registerDiscovered_nextId (st : ServerState) (sid : Nat) (ev : Json) :
    (registerDiscoveredSessionKey st sid ev).nextId = st.nextId := by
  unfold registerDiscoveredSessionKey
  split
  · rfl
  · split
    · split
      · split
        · rfl
        · rw [registerKey_nextId]
      · rfl
    · rfl

@[simp] theorem registerDiscovered_created (st : ServerState) (sid : Nat) (ev : Json) :
    (registerDiscoveredSessionKey st sid ev).created = st.created := by
  unfold registerDiscoveredSessionKey
  split
  · rfl
  · split
    · split
      · split
        · rfl
        · rw [registerKey_created]
      · rfl
    · rfl

theorem registerDiscovered_store (st : ServerState) (sid : Nat) (ev : Json) (i : Nat) :
    ((registerDiscoveredSessionKey st sid ev).store i = st.store i) ∨
      ∃ m ks, st.store i = some m ∧
        (registerDiscoveredSessionKey st sid ev).store i = some { m with keys := ks } := by
  unfold registerDiscoveredSessionKey
  split
  · exact Or.inl rfl
  · next m heq =>
    split
    · split
      · split
        · exact Or.inl rfl
        · rw [registerKey_store _ heq]
          by_cases hi : i = sid
          · subst hi
            rw [if_pos rfl]
            exact Or.inr ⟨m, _, heq, rfl⟩
          · rw [if_neg hi]
            exact Or.inl rfl
      · exact Or.inl rfl
    · exact Or.inl rfl

theorem updStore_some {st : ServerState} {sid : Nat} {f : ManagedSession → ManagedSession}
    {m : ManagedSession} (hm : st.store sid = some m) :
    (updStore st sid f).store sid = some (f m) := by
  rw [updStore_store, if_pos rfl, hm, Option.map_some']

@[simp] theorem agentStartStep_bindings (st : ServerState) (sid : Nat) (ev : Json) :
    (agentStartStep st sid ev).socketBindings = st.socketBindings := by
  unfold agentStartStep
  split
  · rw [updStore_bindings]
  · rfl

@[simp] theorem agentStartStep_reg (st : ServerState) (sid : Nat) (ev : Json) :
    (agentStartStep st sid ev).rpcSessions = st.rpcSessions := by
  unfold agentStartStep
  split
  · rw [updStore_reg]
  · rfl

@[simp] theorem agentStartStep_nextId (st : ServerState) (sid : Nat) (ev : Json) :
    (agentStartStep st sid ev).nextId = st.nextId := by
  unfold agentStartStep
  split
  · rw [updStore_nextId]
  · rfl

@[simp] theorem agentStartStep_created (st : ServerState) (sid : Nat) (ev : Json) :
    (agentStartStep st sid ev).created = st.created := by
  unfold agentStartStep
  split
  · rw [updStore_created]
  · rfl

theorem agentStartStep_store_other (st : ServerState) (sid : Nat) (ev : Json)
    {i : Nat} (hne : i ≠ sid) :
    (agentStartStep st sid ev).store i = st.store i := by
  unfold agentStartStep
  split
  · rw [updStore_store, if_neg hne]
  · rfl

theorem agentStartStep_some {st : ServerState} {sid : Nat} (ev : Json)
    {m : ManagedSession} (hm : st.store sid = some m) :
    ∃ m1, (agentStartStep st sid ev).store sid = some m1 ∧
      m1.currentModelSupportsImages = m.currentModelSupportsImages ∧
      m1.isClosing = m.isClosing ∧ m1.cwd = m.cwd ∧
      m1.rpcKilled = m.rpcKilled ∧ m1.keys = m.keys ∧ m1.clients = m.clients := by
  unfold agentStartStep
  split
  · exact ⟨_, updStore_some hm, rfl, rfl, rfl, rfl, rfl, rfl⟩
  · exact ⟨m, hm, rfl, rfl, rfl, rfl, rfl, rfl⟩

@[simp] theorem agentEndStep_bindings (st : ServerState) (sid : Nat) (ev : Json) :
    (agentEndStep st sid ev).socketBindings = st.socketBindings := by
  unfold agentEndStep
  split
  · rw [updStore_bindings]
  · rfl

@[simp] theorem agentEndStep_reg (st : ServerState) (sid : Nat) (ev : Json) :
    (agentEndStep st sid ev).rpcSessions = st.rpcSessions := by
  unfold agentEndStep
  split
  · rw [updStore_reg]
  · rfl

@[simp] theorem agentEndStep_nextId (st : ServerState) (sid : Nat) (ev : Json) :
    (agentEndStep st sid ev).nextId = st.nextId := by
  unfold agentEndStep
  split
  · rw [updStore_nextId]
  · rfl

@[simp] theorem agentEndStep_created (st : ServerState) (sid : Nat) (ev : Json) :
    (agentEndStep st sid ev).created = st.created := by
  unfold agentEndStep
  split
  · rw [updStore_created]
  · rfl

theorem agentEndStep_store_other (st : ServerState) (sid : Nat) (ev : Json)
    {i : Nat} (hne : i ≠ sid) :
    (agentEndStep st sid ev).store i = st.store i := by
  unfold agentEndStep
  split
  · rw [updStore_store, if_neg hne]
  · rfl

theorem agentEndStep_some {st : ServerState} {sid : Nat} (ev : Json)
    {m : ManagedSession} (hm : st.store sid = some m) :
    ∃ m1, (agentEndStep st sid ev).store sid = some m1 ∧
      m1.currentModelSupportsImages = m.currentModelSupportsImages ∧
      m1.isClosing = m.isClosing ∧ m1.cwd = m.cwd ∧
      m1.rpcKilled = m.rpcKilled ∧ m1.keys = m.keys ∧ m1.clients = m.clients := by
  unfold agentEndStep
  split
  · exact ⟨_, updStore_some hm, by simp, by simp, by simp, by simp, by simp, by simp⟩
  · exact ⟨m, hm, rfl, rfl, rfl, rfl, rfl, rfl⟩

theorem registerDiscovered_store_other (st : ServerState) (sid : Nat) (ev : Json)
    {i : Nat} (hne : i ≠ sid) :
    (registerDiscoveredSessionKey st sid ev).store i = st.store i := by
  unfold registerDiscoveredSessionKey
  split
  · rfl
  · next m heq =>
    split
    · split
      · split
        · rfl
        · rw [registerKey_store _ heq, if_neg hne]
      · rfl
    · rfl

theorem registerDiscovered_reg_to_sid {st : ServerState} {sid : Nat} (ev : Json)
    {k : String} (hk : st.rpcSessions k = some sid) :
    (registerDiscoveredSessionKey st sid ev).rpcSessions k = some sid := by
  unfold registerDiscoveredSessionKey
  split
  · exact hk
  · next m heq =>
    split
    · split
      · split
        · exact hk
        · rw [registerKey_reg _ heq]
          split
          · rfl
          · exact hk
      · exact hk
    · exact hk

theorem agentEventState_store_other (st : ServerState) (sid : Nat) (ev : Json)
    {i : Nat} (hne : i ≠ sid) :
    (agentEventState st sid ev).store i = st.store i := by
  unfold agentEventState
  rw [registerDiscovered_store_other _ _ _ hne, updStore_store, if_neg hne,
    agentEndStep_store_other _ _ _ hne, agentStartStep_store_other _ _ _ hne]

@[simp] theorem agentEventState_bindings (st : ServerState) (sid : Nat) (ev : Json) :
    (agentEventState st sid ev).socketBindings = st.socketBindings := by
  unfold agentEventState
  rw [registerDiscovered_bindings, updStore_bindings, agentEndStep_bindings,
    agentStartStep_bindings]

@[simp] theorem agentEventState_nextId (st : ServerState) (sid : Nat) (ev : Json) :
    (agentEventState st sid ev).nextId = st.nextId := by
  unfold agentEventState
  rw [registerDiscovered_nextId, updStore_nextId, agentEndStep_nextId,
    agentStartStep_nextId]

@[simp] theorem agentEventState_created (st : ServerState) (sid : Nat) (ev : Json) :
    (agentEventState st sid ev).created = st.created := by
  unfold agentEventState
  rw [registerDiscovered_created, updStore_created, agentEndStep_created,
    agentStartStep_created]

theorem agentEventState_reg_to_sid {st : ServerState} {sid : Nat} (ev : Json)
    {k : String} (hk : st.rpcSessions k = some sid) :
    (agentEventState st sid ev).rpcSessions k = some sid := by
  unfold agentEventState
  apply registerDiscovered_reg_to_sid
  rw [updStore_reg, agentEndStep_reg, agentStartStep_reg]
  exact hk

theorem agentEventState_store_self {st : ServerState} {sid : Nat} (ev : Json)
    {m : ManagedSession} (hm : st.store sid = some m) :
    ∃ m', (agentEventState st sid ev).store sid = some m' ∧
      m'.currentModelSupportsImages =
        (match relevantModality ev with
         | some b => some b
         | none => m.currentModelSupportsImages) ∧
      m'.isClosing = m.isClosing ∧ m'.cwd = m.cwd ∧ m'.rpcKilled = m.rpcKilled := by
  obtain ⟨m1, hm1, hf1, hc1, hw1, hk1, _, _⟩ := agentStartStep_some ev hm
  obtain ⟨m2, hm2, hf2, hc2, hw2, hk2, _, _⟩ := agentEndStep_some ev hm1
  have hm3 : (updStore (agentEndStep (agentStartStep st sid ev) sid ev) sid
      (fun m => updateSessionModelCapability m ev)).store sid =
      some (updateSessionModelCapability m2 ev) := updStore_some hm2
  have hflag : (updateSessionModelCapability m2 ev).currentModelSupportsImages =
      (match relevantModality ev with
       | some b => some b
       | none => m.currentModelSupportsImages) := by
    rcases hrel : relevantModality ev with _ | b
    · rw [updCap_flag_none _ hrel, hf2, hf1]
    · rw [updCap_flag_some _ hrel]
  unfold agentEventState
  rcases registerDiscovered_store (updStore (agentEndStep (agentStartStep st sid ev)
      sid ev) sid (fun m => updateSessionModelCapability m ev)) sid ev sid
    with hA | ⟨mm, ks, hmm, hst⟩
  · refine ⟨updateSessionModelCapability m2 ev, by rw [hA]; exact hm3, hflag, ?_, ?_, ?_⟩
    · simp [hc2, hc1]
    · simp [hw2, hw1]
    · simp [hk2, hk1]
  · rw [hm3] at hmm
    injection hmm with he
    subst he
    refine ⟨_, hst, ?_, ?_, ?_, ?_⟩
    · simpa using hflag
    · simp [hc2, hc1]
    · simp [hw2, hw1]
    · simp [hk2, hk1]

theorem closedGone_updStore {st : ServerState} {sid : Nat} (tid : Nat)
    {f : ManagedSession → ManagedSession}
    (hcs : ∀ m, (f m).isClosing = m.isClosing)
    (h : ClosedGone sid st) : ClosedGone sid (updStore st tid f) := by
  obtain ⟨⟨m, hm, hcl⟩, hnb, hlt⟩ := h
  refine ⟨?_, ?_, ?_⟩
  · rw [updStore_store]
    by_cases hi : sid = tid
    · subst hi
      rw [if_pos rfl, hm, Option.map_some']
      exact ⟨f m, rfl, by rw [hcs]; exact hcl⟩
    · rw [if_neg hi]
      exact ⟨m, hm, hcl⟩
  · intro w
    rw [updStore_bindings]
    exact hnb w
  · rw [updStore_nextId]
    exact hlt

theorem closedGone_detach {st : ServerState} (ws : Client) {sid : Nat}
    (h : ClosedGone sid st) : ClosedGone sid (detachSocket st ws) := by
  obtain ⟨⟨m, hm, hcl⟩, hnb, hlt⟩ := h
  rcases detachSocket_spec st ws with hid | ⟨bsid, bm, hb, hs, hstore, hbind⟩
  · rw [hid]
    exact ⟨⟨m, hm, hcl⟩, hnb, hlt⟩
  · refine ⟨?_, ?_, ?_⟩
    · rw [hstore]
      by_cases hi : sid = bsid
      · subst hi
        rw [hm] at hs
        injection hs with he
        subst he
        rw [if_pos rfl]
        exact ⟨_, rfl, by simpa using hcl⟩
      · rw [if_neg hi]
        exact ⟨m, hm, hcl⟩
    · intro w
      rw [hbind]
      split
      · intro hcon; cases hcon
      · exact hnb w
    · rw [detachSocket_nextId]
      exact hlt

theorem closedGone_create {st : ServerState} {sid : Nat} (cwd : String)
    (sf : Option String) (h : ClosedGone sid st) :
    ClosedGone sid ((createManagedSession st cwd sf).1) := by
  obtain ⟨⟨m, hm, hcl⟩, hnb, hlt⟩ := h
  refine ⟨?_, ?_, ?_⟩
  · rw [create_store, if_neg (by omega)]
    exact ⟨m, hm, hcl⟩
  · intro w
    rw [create_bindings]
    exact hnb w
  · rw [create_nextId]
    omega

theorem closedGone_joinBind {st : ServerState} {sid : Nat} (ws : Client) {tid : Nat}
    (hne : tid ≠ sid) (h : ClosedGone sid st) :
    ClosedGone sid (joinBind st ws tid) := by
  obtain ⟨⟨m, hm, hcl⟩, hnb, hlt⟩ := h
  refine ⟨?_, ?_, ?_⟩
  · rw [joinBind_store, updStore_store, if_neg (fun he => hne he.symm)]
    exact ⟨m, hm, hcl⟩
  · intro w
    rw [joinBind_bindings]
    split
    · intro hcon
      injection hcon with he
      exact hne he
    · exact hnb w
  · rw [joinBind_nextId]
    exact hlt

theorem closedGone_attachProceed {st : ServerState} {sid : Nat} (ws : Client)
    (rcwd : String) (rfile : Option String) (h : ClosedGone sid st) :
    ClosedGone sid (attachProceed st ws rcwd rfile) := by
  have h0 : ClosedGone sid (detachSocket st ws) := closedGone_detach ws h
  rw [attachProceed_eq]
  rcases hll : lookupLive (detachSocket st ws) (buildSessionKey rcwd rfile)
    with _ | tid
  · rw [resolveOrCreate_none hll, create_sid]
    refine closedGone_joinBind ws ?_ (closedGone_create rcwd rfile h0)
    have := h0.lt_next
    omega
  · rw [resolveOrCreate_some hll]
    refine closedGone_joinBind ws ?_ h0
    intro he
    subst he
    obtain ⟨hr, m0, hm0, hc0⟩ := lookupLive_inv hll
    obtain ⟨m, hm, hcl⟩ := h0.closing
    rw [hm0] at hm
    injection hm with hee
    subst hee
    rw [hc0] at hcl
    cases hcl

theorem closedGone_startSession {st : ServerState} {sid : Nat} (ws : Client)
    (cwd : String) (sf : Option String) (h : ClosedGone sid st) :
    ClosedGone sid (handleStartSession st ws cwd sf) := by
  unfold handleStartSession
  split
  · split
    · exact closedGone_updStore _ (fun m => rfl) h
    · exact h
  · exact closedGone_attachProceed ws _ _ h

theorem closedGone_registerDiscovered {st : ServerState} {sid : Nat} (tid : Nat)
    (ev : Json) (h : ClosedGone sid st) :
    ClosedGone sid (registerDiscoveredSessionKey st tid ev) := by
  obtain ⟨⟨m, hm, hcl⟩, hnb, hlt⟩ := h
  refine ⟨?_, ?_, ?_⟩
  · rcases registerDiscovered_store st tid ev sid with hA | ⟨mm, ks, hmm, hst⟩
    · rw [hA]
      exact ⟨m, hm, hcl⟩
    · rw [hmm] at hm
      injection hm with he
      subst he
      exact ⟨_, hst, hcl⟩
  · intro w
    rw [registerDiscovered_bindings]
    exact hnb w
  · rw [registerDiscovered_nextId]
    exact hlt

theorem closedGone_agentStartStep {st : ServerState} {sid : Nat} (tid : Nat)
    (ev : Json) (h : ClosedGone sid st) :
    ClosedGone sid (agentStartStep st tid ev) := by
  unfold agentStartStep
  split
  · exact closedGone_updStore _ (fun m => rfl) h
  · exact h

theorem closedGone_agentEndStep {st : ServerState} {sid : Nat} (tid : Nat)
    (ev : Json) (h : ClosedGone sid st) :
    ClosedGone sid (agentEndStep st tid ev) := by
  unfold agentEndStep
  split
  · exact closedGone_updStore _ (fun m => by simp) h
  · exact h

theorem closedGone_agentEventState {st : ServerState} {sid : Nat} (tid : Nat)
    (ev : Json) (h : ClosedGone sid st) :
    ClosedGone sid (agentEventState st tid ev) := by
  unfold agentEventState
  exact closedGone_registerDiscovered tid ev
    (closedGone_updStore tid (fun m => by simp)
      (closedGone_agentEndStep tid ev (closedGone_agentStartStep tid ev h)))

theorem closedGone_procExit {st : ServerState} {sid : Nat} (tid : Nat)
    (code : Option Int) (h : ClosedGone sid st) :
    ClosedGone sid (handleProcExit st tid code).1 := by
  obtain ⟨⟨m, hm, hcl⟩, hnb, hlt⟩ := h
  rcases hx : st.store tid with _ | mt
  · have : (handleProcExit st tid code).1 = st := by
      unfold handleProcExit
      rw [hx]
    rw [this]
    exact ⟨⟨m, hm, hcl⟩, hnb, hlt⟩
  · refine ⟨?_, ?_, ?_⟩
    · rw [procExit_store code hx]
      by_cases hi : sid = tid
      · rw [if_pos hi]
        exact ⟨_, rfl, rfl⟩
      · rw [if_neg hi]
        exact ⟨m, hm, hcl⟩
    · intro w
      rw [procExit_bindings code hx]
      split
      · intro hcon; cases hcon
      · exact hnb w
    · rw [procExit_nextId]
      exact hlt

theorem closedGone_close {st : ServerState} {sid : Nat} (tid : Nat)
    (h : ClosedGone sid st) : ClosedGone sid (closeManagedSession st tid) := by
  obtain ⟨⟨m, hm, hcl⟩, hnb, hlt⟩ := h
  rcases hx : st.store tid with _ | mt
  · have : closeManagedSession st tid = st := by
      unfold closeManagedSession
      rw [hx]
    rw [this]
    exact ⟨⟨m, hm, hcl⟩, hnb, hlt⟩
  · rcases hct : mt.isClosing with _ | _
    · refine ⟨?_, ?_, ?_⟩
      · rw [close_store hx hct]
        by_cases hi : sid = tid
        · rw [if_pos hi]
          exact ⟨_, rfl, rfl⟩
        · rw [if_neg hi]
          exact ⟨m, hm, hcl⟩
      · intro w
        rw [close_bindings]
        exact hnb w
      · rw [close_nextId]
        exact hlt
    · rw [close_already hx hct]
      exact ⟨⟨m, hm, hcl⟩, hnb, hlt⟩

theorem closedGone_timerFire {st : ServerState} {sid : Nat} (tid : Nat)
    (h : ClosedGone sid st) : ClosedGone sid (timerFire st tid) := by
  rcases hx : st.store tid with _ | mt
  · have : timerFire st tid = st := by
      unfold timerFire
      rw [hx]
    rw [this]
    exact h
  · rcases ht : mt.idleCleanupTimer with _ | _
    · rw [timerFire_no_pending hx ht]
      exact h
    · by_cases hblock : mt.isClosing = true ∨ 0 < mt.clients.length ∨
          mt.isAgentRunning = true
      · rw [timerFire_blocked hx ht hblock]
        have : setStore st tid { mt with idleCleanupTimer := false } =
            updStore st tid (fun mm => { mm with idleCleanupTimer := false }) := by
          unfold updStore
          rw [hx]
        rw [this]
        exact closedGone_updStore _ (fun mm => rfl) h
      · push_neg at hblock
        obtain ⟨hcl2, hlen, hrun⟩ := hblock
        have hcli : mt.clients = [] := by
          cases hq : mt.clients with
          | nil => rfl
          | cons a l => rw [hq] at hlen; simp at hlen
        rw [timerFire_closes hx ht (by simpa using hcl2) hcli (by simpa using hrun)]
        apply closedGone_close
        have : setStore st tid { mt with idleCleanupTimer := false } =
            updStore st tid (fun mm => { mm with idleCleanupTimer := false }) := by
          unfold updStore
          rw [hx]
        rw [this]
        exact closedGone_updStore _ (fun mm => rfl) h

theorem closedGone_step {st : ServerState} {sid : Nat} (l : Label)
    (h : ClosedGone sid st) : ClosedGone sid (step st l).1 := by
  cases l with
  | startSession ws cwd sf => exact closedGone_startSession ws cwd sf h
  | detachSession ws => exact closedGone_detach ws h
  | rpcCommand ws cmd => rw [show (step st (.rpcCommand ws cmd)).1 =
      (handleRpcCommand st ws cmd).1 from rfl, rpcCommand_state]; exact h
  | ping ws => exact h
  | agentEvent tid ev =>
    rcases handleAgentEvent_state st tid ev with he | he <;> rw [show
      (step st (.agentEvent tid ev)).1 = (handleAgentEvent st tid ev).1 from rfl, he]
    · exact h
    · exact closedGone_agentEventState tid ev h
  | agentError tid msg => exact h
  | procExit tid code => exact closedGone_procExit tid code h
  | timerFire tid => exact closedGone_timerFire tid h

theorem closedGone_run {sid : Nat} (labels : List Label) :
    ∀ {st : ServerState}, ClosedGone sid st → ClosedGone sid (run st labels) := by
  induction labels with
  | nil => intro st h; exact h
  | cons l rest ih =>
    intro st h
    exact ih (closedGone_step l h)

theorem flagPres_updStore {st : ServerState} (sid tid : Nat)
    {f : ManagedSession → ManagedSession}
    (hf : ∀ m, (f m).currentModelSupportsImages = m.currentModelSupportsImages) :
    flagPres sid st (updStore st tid f) := by
  intro m hm
  rw [updStore_store]
  by_cases hi : sid = tid
  · subst hi
    rw [if_pos rfl, hm, Option.map_some']
    exact ⟨f m, rfl, hf m⟩
  · rw [if_neg hi]
    exact ⟨m, hm, rfl⟩

theorem flagPres_detach {st : ServerState} (sid : Nat) (ws : Client) :
    flagPres sid st (detachSocket st ws) := by
  intro m hm
  rcases detachSocket_spec st ws with hid | ⟨bsid, bm, hb, hs, hstore, hbind⟩
  · rw [hid]
    exact ⟨m, hm, rfl⟩
  · rw [hstore]
    by_cases hi : sid = bsid
    · subst hi
      rw [hm] at hs
      injection hs with he
      subst he
      rw [if_pos rfl]
      exact ⟨_, rfl, by simp⟩
    · rw [if_neg hi]
      exact ⟨m, hm, rfl⟩

theorem flagPres_trans {st1 st2 st3 : ServerState} (sid : Nat)
    (h12 : flagPres sid st1 st2) (h23 : flagPres sid st2 st3) :
    flagPres sid st1 st3 := by
  intro m hm
  obtain ⟨m2, hm2, hf2⟩ := h12 m hm
  obtain ⟨m3, hm3, hf3⟩ := h23 m2 hm2
  exact ⟨m3, hm3, by rw [hf3, hf2]⟩

theorem flagPres_create {st : ServerState} (sid : Nat) (cwd : String)
    (sf : Option String) (hg : GlobalInv st) :
    flagPres sid st ((createManagedSession st cwd sf).1) := by
  intro m hm
  rw [create_store]
  have : sid ≠ st.nextId := by
    intro he
    subst he
    rw [hg.fresh _ (Nat.le_refl _)] at hm
    cases hm
  rw [if_neg this]
  exact ⟨m, hm, rfl⟩

theorem flagPres_joinBind {st : ServerState} (sid tid : Nat) (ws : Client) :
    flagPres sid st (joinBind st ws tid) := by
  intro m hm
  rw [joinBind_store]
  exact flagPres_updStore sid tid (f := joinFn ws) (fun mm => rfl) m hm

theorem flagPres_startSession {st : ServerState} (sid : Nat) (ws : Client)
    (cwd : String) (sf : Option String) (hg : GlobalInv st) :
    flagPres sid st (handleStartSession st ws cwd sf) := by
  unfold handleStartSession
  split
  · split
    · exact flagPres_updStore sid _ (fun mm => rfl)
    · intro m hm; exact ⟨m, hm, rfl⟩
  · rw [attachProceed_eq]
    have h0 : GlobalInv (detachSocket st ws) := ginv_detachSocket ws hg
    rcases hll : lookupLive (detachSocket st ws)
        (buildSessionKey (msgCwd cwd) (normalizeSessionFile sf)) with _ | tid
    · rw [resolveOrCreate_none hll, create_sid]
      exact flagPres_trans sid (flagPres_detach sid ws)
        (flagPres_trans sid
          (flagPres_create sid (msgCwd cwd) (normalizeSessionFile sf) h0)
          (flagPres_joinBind sid (detachSocket st ws).nextId ws))
    · rw [resolveOrCreate_some hll]
      exact flagPres_trans sid (flagPres_detach sid ws) (flagPres_joinBind sid tid ws)

theorem flagPres_registerDiscovered {st : ServerState} (sid tid : Nat) (ev : Json) :
    flagPres sid st (registerDiscoveredSessionKey st tid ev) := by
  intro m hm
  rcases registerDiscovered_store st tid ev sid with hA | ⟨mm, ks, hmm, hst⟩
  · rw [hA]
    exact ⟨m, hm, rfl⟩
  · rw [hmm] at hm
    injection hm with he
    subst he
    exact ⟨_, hst, rfl⟩

theorem flagPres_procExit {st : ServerState} (sid tid : Nat) (code : Option Int) :
    flagPres sid st (handleProcExit st tid code).1 := by
  intro m hm
  rcases hx : st.store tid with _ | mt
  · have : (handleProcExit st tid code).1 = st := by
      unfold handleProcExit
      rw [hx]
    rw [this]
    exact ⟨m, hm, rfl⟩
  · rw [procExit_store code hx]
    by_cases hi : sid = tid
    · subst hi
      rw [hm] at hx
      injection hx with he
      subst he
      rw [if_pos rfl]
      exact ⟨_, rfl, rfl⟩
    · rw [if_neg hi]
      exact ⟨m, hm, rfl⟩

theorem flagPres_close {st : ServerState} (sid tid : Nat) :
    flagPres sid st (closeManagedSession st tid) := by
  intro m hm
  rcases hx : st.store tid with _ | mt
  · have : closeManagedSession st tid = st := by
      unfold closeManagedSession
      rw [hx]
    rw [this]
    exact ⟨m, hm, rfl⟩
  · rcases hct : mt.isClosing with _ | _
    · rw [close_store hx hct]
      by_cases hi : sid = tid
      · subst hi
        rw [hm] at hx
        injection hx with he
        subst he
        rw [if_pos rfl]
        exact ⟨_, rfl, rfl⟩
      · rw [if_neg hi]
        exact ⟨m, hm, rfl⟩
    · rw [close_already hx hct]
      exact ⟨m, hm, rfl⟩

theorem flagPres_timerFire {st : ServerState} (sid tid : Nat) :
    flagPres sid st (timerFire st tid) := by
  intro m hm
  rcases hx : st.store tid with _ | mt
  · have : timerFire st tid = st := by
      unfold timerFire
      rw [hx]
    rw [this]
    exact ⟨m, hm, rfl⟩
  · rcases ht : mt.idleCleanupTimer with _ | _
    · rw [timerFire_no_pending hx ht]
      exact ⟨m, hm, rfl⟩
    · have hset : setStore st tid { mt with idleCleanupTimer := false } =
          updStore st tid (fun mm => { mm with idleCleanupTimer := false }) := by
        unfold updStore
        rw [hx]
      by_cases hblock : mt.isClosing = true ∨ 0 < mt.clients.length ∨
          mt.isAgentRunning = true
      · rw [timerFire_blocked hx ht hblock, hset]
        exact flagPres_updStore sid tid
          (f := fun mm => { mm with idleCleanupTimer := false }) (fun mm => rfl) m hm
      · push_neg at hblock
        obtain ⟨hcl2, hlen, hrun⟩ := hblock
        have hcli : mt.clients = [] := by
          cases hq : mt.clients with
          | nil => rfl
          | cons a l => rw [hq] at hlen; simp at hlen
        rw [timerFire_closes hx ht (by simpa using hcl2) hcli (by simpa using hrun),
          hset]
        exact flagPres_trans sid (flagPres_updStore sid tid
            (f := fun mm => { mm with idleCleanupTimer := false }) (fun mm => rfl))
          (flagPres_close sid tid) m hm

theorem flag_frame {st : ServerState} (hg : GlobalInv st) (l : Label) {sid : Nat}
    {m m' : ManagedSession} (hm : st.store sid = some m)
    (hm' : (step st l).1.store sid = some m')
    (hne : m'.currentModelSupportsImages ≠ m.currentModelSupportsImages) :
    ∃ ev b, l = Label.agentEvent sid ev ∧ relevantModality ev = some b ∧
      m'.currentModelSupportsImages = some b := by
  have contra : flagPres sid st (step st l).1 → False := by
    intro hp
    obtain ⟨m'', hm'', hf⟩ := hp m hm
    rw [hm''] at hm'
    injection hm' with he
    subst he
    exact hne hf
  cases l with
  | startSession ws cwd sf => exact absurd (flagPres_startSession sid ws cwd sf hg) contra
  | detachSession ws => exact absurd (flagPres_detach sid ws) contra
  | rpcCommand ws cmd =>
    exfalso
    apply contra
    rw [show (step st (.rpcCommand ws cmd)).1 = (handleRpcCommand st ws cmd).1 from rfl,
      rpcCommand_state]
    intro mm hmm
    exact ⟨mm, hmm, rfl⟩
  | ping ws => exact absurd (fun mm hmm => ⟨mm, hmm, rfl⟩) contra
  | agentError tid msg => exact absurd (fun mm hmm => ⟨mm, hmm, rfl⟩) contra
  | procExit tid code => exact absurd (flagPres_procExit sid tid code) contra
  | timerFire tid => exact absurd (flagPres_timerFire sid tid) contra
  | agentEvent tid ev =>
    have hstep : (step st (.agentEvent tid ev)).1 = (handleAgentEvent st tid ev).1 := rfl
    rcases handleAgentEvent_state st tid ev with he | he
    · exfalso
      apply contra
      rw [hstep, he]
      intro mm hmm
      exact ⟨mm, hmm, rfl⟩
    · by_cases hi : tid = sid
      · subst hi
        obtain ⟨m'', hm'', hflag, _, _, _⟩ := agentEventState_store_self ev hm
        rw [hstep, he, hm''] at hm'
        injection hm' with hee
        subst hee
        rcases hrel : relevantModality ev with _ | b
        · exfalso
          rw [hrel] at hflag
          exact hne hflag
        · rw [hrel] at hflag
          exact ⟨ev, b, rfl, hrel, hflag⟩
      · exfalso
        apply contra
        rw [hstep, he]
        intro mm hmm
        rw [agentEventState_store_other st tid ev (fun hc => hi hc.symm)]
        exact ⟨mm, hmm, rfl⟩

theorem string_length_zero {s : String} (h : s.length = 0) : s = "" := by
  cases s with
  | mk data =>
    simp only [String.length] at h
    rw [List.length_eq_zero] at h
    rw [h]

theorem alreadyBound_inv {st : ServerState} {ws : Client} {key : String}
    (h : alreadyBoundToKey st ws key = true) :
    ∃ bsid bm, st.socketBindings ws = some bsid ∧ st.store bsid = some bm ∧
      key ∈ bm.keys := by
  unfold alreadyBoundToKey at h
  split at h
  · next bsid heq =>
    split at h
    · next bm heq2 =>
      exact ⟨bsid, bm, heq, heq2, by simpa using h⟩
    · cases h
  · cases h

theorem attach_resolves {st : ServerState} {ws : Client} {cwd : String}
    {sf : Option String} {sid : Nat} {m : ManagedSession}
    (hb : st.socketBindings ws = none)
    (hr : st.rpcSessions (msgKey cwd sf) = some sid)
    (hs : st.store sid = some m) (hc : m.isClosing = false) :
    (handleStartSession st ws cwd sf).socketBindings ws = some sid ∧
    (handleStartSession st ws cwd sf).created = st.created ∧
    (handleStartSession st ws cwd sf).rpcSessions = st.rpcSessions ∧
    (handleStartSession st ws cwd sf).store sid = some (joinFn ws m) ∧
    (∀ i, i ≠ sid → (handleStartSession st ws cwd sf).store i = st.store i) ∧
    (∀ w, w ≠ ws → (handleStartSession st ws cwd sf).socketBindings w =
      st.socketBindings w) ∧
    (handleStartSession st ws cwd sf).nextId = st.nextId := by
  have hab : alreadyBoundToKey st ws (msgKey cwd sf) = false := by
    unfold alreadyBoundToKey
    rw [hb]
  have hd : detachSocket st ws = st := detachSocket_none st ws hb
  have hll : lookupLive st (buildSessionKey (msgCwd cwd) (normalizeSessionFile sf)) =
      some sid := lookupLive_some hr hs hc
  have hmain : handleStartSession st ws cwd sf = joinBind st ws sid := by
    unfold handleStartSession
    rw [hab]
    simp only [Bool.false_eq_true, if_false]
    rw [attachProceed_eq, hd, resolveOrCreate_some hll]
  rw [hmain]
  refine ⟨?_, joinBind_created st ws sid, joinBind_reg st ws sid, ?_, ?_, ?_,
    joinBind_nextId st ws sid⟩
  · rw [joinBind_bindings, if_pos rfl]
  · rw [joinBind_store]
    exact updStore_some hs
  · intro i hi
    rw [joinBind_store, updStore_store, if_neg hi]
  · intro w hw
    rw [joinBind_bindings, if_neg hw]

theorem cleanupIfIdle_arms {m : ManagedSession} (hcl : m.isClosing = false)
    (hcli : m.clients = []) (hrun : m.isAgentRunning = false) :
    (cleanupIfIdle m).idleCleanupTimer = true := by
  unfold cleanupIfIdle
  rw [if_neg (by simp [hcl]), if_neg (by simp [hcli]), if_neg (by simp [hrun])]
  by_cases ht : m.idleCleanupTimer = true
  · rw [if_pos ht]
    exact ht
  · rw [if_neg ht]

theorem registerDiscovered_registers {st : ServerState} {sid : Nat}
    {m : ManagedSession} {ev : Json} {s : String}
    (hs : st.store sid = some m)
    (htype : ev.strField "type" = some "response")
    (hcmd : ev.strField "command" = some "get_state")
    (hdata : (ev.field "data").bind (fun d => d.field "sessionFile") = some (.str s))
    (hsne : s ≠ "") :
    registerDiscoveredSessionKey st sid ev =
      registerManagedSessionKey st sid (buildSessionKey m.cwd (some (basename s))) := by
  unfold registerDiscoveredSessionKey
  split
  · next heq => rw [heq] at hs; cases hs
  · next m' heq =>
    rw [heq] at hs
    injection hs with he
    subst he
    rw [if_pos ⟨htype, hcmd⟩]
    split
    · next s' heq2 =>
      rw [hdata] at heq2
      injection heq2 with he2
      injection he2 with he3
      subst he3
      rw [if_neg (fun h0 => hsne (string_length_zero h0))]
    · next hne2 =>
      exact absurd hdata (hne2 _)

theorem pumpAux_no_newline {α : Type} (parse : List Char → Option α) :
    ∀ (p acc y : List Char), (∀ c ∈ p, c ≠ '\n') →
      pumpAux parse acc (p ++ y) = pumpAux parse (p.reverse ++ acc) y := by
  intro p
  induction p with
  | nil => intro acc y _; simp
  | cons c p ih =>
    intro acc y h
    have hc : c ≠ '\n' := h c (by simp)
    have h' : ∀ d ∈ p, d ≠ '\n' := fun d hd => h d (by simp [hd])
    simp [pumpAux, hc, ih (c :: acc) y h']

theorem pumpAux_residue_clean {α : Type} (parse : List Char → Option α) :
    ∀ (l acc : List Char), (∀ c ∈ acc, c ≠ '\n') →
      ∀ c ∈ (pumpAux parse acc l).1, c ≠ '\n' := by
  intro l
  induction l with
  | nil =>
    intro acc h c hc
    simp only [pumpAux, List.mem_reverse] at hc
    exact h c hc
  | cons d l ih =>
    intro acc h c hc
    by_cases hd : d = '\n'
    · subst hd
      simp only [pumpAux, if_pos rfl] at hc
      exact ih [] (by simp) c hc
    · simp only [pumpAux, if_neg hd] at hc
      exact ih (d :: acc) (by simpa [hd] using h) c hc

theorem pumpAux_append {α : Type} (parse : List Char → Option α) :
    ∀ (x y acc : List Char),
      pumpAux parse acc (x ++ y) =
        ((pumpAux parse (pumpAux parse acc x).1.reverse y).1,
         (pumpAux parse acc x).2 ++
           (pumpAux parse (pumpAux parse acc x).1.reverse y).2) := by
  intro x
  induction x with
  | nil => intro y acc; simp [pumpAux]
  | cons c x ih =>
    intro y acc
    by_cases hc : c = '\n'
    · subst hc
      simp [pumpAux, ih y []]
    · simp [pumpAux, hc, ih y (c :: acc)]

theorem pumpAux_events {α : Type} (parse : List Char → Option α) :
    ∀ (s acc : List Char),
      (pumpAux parse acc s).2 = (linesAux acc s).filterMap (lineEvent parse) := by
  intro s
  induction s with
  | nil => intro acc; simp [pumpAux, linesAux]
  | cons c s ih =>
    intro acc
    by_cases hc : c = '\n'
    · subst hc
      rcases h : lineEvent parse acc.reverse with _ | v <;>
        simp [pumpAux, linesAux, List.filterMap_cons, h, ih []]
    · simp [pumpAux, linesAux, hc, ih (c :: acc)]

theorem processAll_foldl {α : Type} (parse : List Char → Option α) :
    ∀ (chunks : List (List Char)) (b : List Char) (e : List α),
      (∀ c ∈ b, c ≠ '\n') →
      chunks.foldl (feedChunk parse) (b, e) =
        ((pumpAux parse b.reverse chunks.flatten).1,
         e ++ (pumpAux parse b.reverse chunks.flatten).2) := by
  intro chunks
  induction chunks with
  | nil => intro b e _; simp [pumpAux]
  | cons c rest ih =>
    intro b e hb
    have habs : pumpBuffer parse (b ++ c) = pumpAux parse b.reverse c := by
      unfold pumpBuffer
      rw [pumpAux_no_newline parse b [] c hb]
      simp
    have hclean : ∀ d ∈ (pumpAux parse b.reverse c).1, d ≠ '\n' :=
      pumpAux_residue_clean parse c b.reverse (by simpa using hb)
    simp only [List.foldl_cons, feedChunk, habs]
    rw [ih (pumpAux parse b.reverse c).1 (e ++ (pumpAux parse b.reverse c).2) hclean]
    rw [List.flatten_cons, pumpAux_append parse c rest.flatten b.reverse]
    simp [List.append_assoc]

/-! ## The claims -/

/-- C6.  Transport output framing: for every byte stream arriving on the
process's output in any chunking, the events delivered equal the successful
parses of the trimmed newline-terminated lines of the concatenated stream, in
line order (whitespace-only lines and lines `parse` rejects are dropped
without affecting later lines), and both the delivered sequence and the
retained buffer depend only on the concatenation — not on how the stream was
split into chunks. -/
theorem claim6_transport_framing {α : Type} (parse : List Char → Option α)
    (chunks : List (List Char)) :
    processAll parse chunks =
      ((pumpBuffer parse chunks.flatten).1,
        (completeLines chunks.flatten).filterMap (lineEvent parse)) := by
  unfold processAll
  rw [processAll_foldl parse chunks [] [] (by intro c hc; cases hc)]
  unfold pumpBuffer completeLines
  rw [pumpAux_events]
  simp

/-- C3.  A running session is never reclaimed by the idle path: `cleanupIfIdle`
arms the idle timer (false to true) exactly when the session is not closing,
its client set is empty and the agent is not running; and an armed timer that
fires while the agent is running or a client is attached only nulls the timer
handle — the session record (including `rpcKilled`), the registry and the
bindings are otherwise untouched. -/
theorem claim3_running_never_reclaimed :
    (∀ m : ManagedSession, m.idleCleanupTimer = false →
      ((cleanupIfIdle m).idleCleanupTimer = true ↔
        m.isClosing = false ∧ m.clients = [] ∧ m.isAgentRunning = false)) ∧
    (∀ (st : ServerState) (sid : Nat) (m : ManagedSession),
      st.store sid = some m → m.idleCleanupTimer = true →
      (m.isAgentRunning = true ∨ m.clients ≠ []) →
      (step st (.timerFire sid)).1.store sid =
        some { m with idleCleanupTimer := false } ∧
      (∀ i, i ≠ sid → (step st (.timerFire sid)).1.store i = st.store i) ∧
      (∀ k, (step st (.timerFire sid)).1.rpcSessions k = st.rpcSessions k) ∧
      (∀ w, (step st (.timerFire sid)).1.socketBindings w = st.socketBindings w)) := by
  constructor
  · intro m ht
    constructor
    · intro harm
      unfold cleanupIfIdle at harm
      split_ifs at harm with h1 h2 h3 h4
      · rw [ht] at harm; cases harm
      · rw [clearTimer_timer] at harm; cases harm
      · rw [clearTimer_timer] at harm; cases harm
      · rw [ht] at h4; cases h4
      · refine ⟨by simpa using h1, ?_, by simpa using h3⟩
        rcases hq : m.clients with _ | ⟨a, l⟩
        · rfl
        · rw [hq] at h2; simp at h2
    · rintro ⟨h1, h2, h3⟩
      unfold cleanupIfIdle
      rw [if_neg (by simp [h1]), if_neg (by simp [h2]), if_neg (by simp [h3]),
        if_neg (by simp [ht])]
  · intro st sid m hs htm hblock
    have hb2 : m.isClosing = true ∨ 0 < m.clients.length ∨ m.isAgentRunning = true := by
      rcases hblock with h | h
      · exact Or.inr (Or.inr h)
      · refine Or.inr (Or.inl ?_)
        rcases hq : m.clients with _ | ⟨a, l⟩
        · exact absurd hq h
        · simp
    have hres : (step st (.timerFire sid)).1 =
        setStore st sid { m with idleCleanupTimer := false } :=
      timerFire_blocked hs htm hb2
    rw [hres]
    exact ⟨by simp, fun i hi => by simp [hi], fun k => rfl, fun w => rfl⟩

/-- C5.  Attachment admission: an `rpc_command` from a bound client whose
command carries attachment data (a prompt-like command with a non-empty
`images` array — the only command shapes of the wire protocol that attach
content) is answered with an error envelope and not forwarded when the
session's image-capability flag is exactly `false`; when the flag is `true`
or unknown (`null`) the command is forwarded to the transport unchanged, and
in both cases the broker state is unchanged. -/
theorem claim5_attachment_admission (st : ServerState) (ws : Client) (sid : Nat)
    (m : ManagedSession) (cmd : Json)
    (hb : st.socketBindings ws = some sid) (hs : st.store sid = some m)
    (hp : isPromptLikeCommand cmd = true) (hi : hasImages cmd = true) :
    (m.currentModelSupportsImages = some false →
      step st (.rpcCommand ws cmd) =
        (st, [.toClient ws
          (.errorMsg "selected model does not support file attachments")])) ∧
    (m.currentModelSupportsImages = some true ∨ m.currentModelSupportsImages = none →
      step st (.rpcCommand ws cmd) = (st, [.toTransport sid cmd])) := by
  have hstep : step st (.rpcCommand ws cmd) = handleRpcCommand st ws cmd := rfl
  rw [hstep]
  unfold handleRpcCommand
  constructor
  · intro hflag
    split
    · next heq => rw [heq] at hb; cases hb
    · next bsid heq =>
      rw [heq] at hb
      injection hb with he
      subst he
      split
      · next heq2 => rw [heq2] at hs; cases hs
      · next bm heq2 =>
        rw [heq2] at hs
        injection hs with he2
        subst he2
        rw [if_pos ⟨hp, hi, hflag⟩]
  · intro hflag
    split
    · next heq => rw [heq] at hb; cases hb
    · next bsid heq =>
      rw [heq] at hb
      injection hb with he
      subst he
      split
      · next heq2 => rw [heq2] at hs; cases hs
      · next bm heq2 =>
        rw [heq2] at hs
        injection hs with he2
        subst he2
        rw [if_neg ?_]
        rintro ⟨_, _, hfl⟩
        rcases hflag with hq | hq <;> rw [hq] at hfl <;> cases hfl

/-- C10.  Implicit scope of attachment rejection: an `rpc_command` from a
bound client is forwarded to the transport exactly unless its command is
prompt-like AND carries a non-empty `images` array AND the capability flag is
exactly `false`; in particular a prompt-like command with an empty `images`
array, and a command of any other type even with an `images` field, are
forwarded even when the flag is `false`. -/
theorem claim10_admission_scope (st : ServerState) (ws : Client) (sid : Nat)
    (m : ManagedSession) (cmd : Json)
    (hb : st.socketBindings ws = some sid) (hs : st.store sid = some m) :
    ((step st (.rpcCommand ws cmd)).2 = [.toTransport sid cmd] ↔
      ¬(isPromptLikeCommand cmd = true ∧ hasImages cmd = true ∧
        m.currentModelSupportsImages = some false)) ∧
    (cmd.field "images" = some (.arr []) →
      (step st (.rpcCommand ws cmd)).2 = [.toTransport sid cmd]) ∧
    (isPromptLikeCommand cmd = false →
      (step st (.rpcCommand ws cmd)).2 = [.toTransport sid cmd]) := by
  have hstep : step st (.rpcCommand ws cmd) = handleRpcCommand st ws cmd := rfl
  have hmain : handleRpcCommand st ws cmd =
      (if isPromptLikeCommand cmd ∧ hasImages cmd ∧
          m.currentModelSupportsImages = some false then
        (st, [.toClient ws
          (.errorMsg "selected model does not support file attachments")])
      else (st, [.toTransport sid cmd])) := by
    unfold handleRpcCommand
    split
    · next heq => rw [heq] at hb; cases hb
    · next bsid heq =>
      rw [heq] at hb
      injection hb with he
      subst he
      split
      · next heq2 => rw [heq2] at hs; cases hs
      · next bm heq2 =>
        rw [heq2] at hs
        injection hs with he2
        subst he2
        rfl
  rw [hstep, hmain]
  refine ⟨?_, ?_, ?_⟩
  · constructor
    · intro hout hcon
      rw [if_pos hcon] at hout
      simp at hout
    · intro hcon
      rw [if_neg hcon]
  · intro hempty
    have hni : hasImages cmd = false := by
      unfold hasImages
      rw [hempty]
      simp
    rw [if_neg (by rintro ⟨_, hI, _⟩; rw [hni] at hI; cases hI)]
  · intro hnp
    rw [if_neg (by rintro ⟨hP, _, _⟩; rw [hnp] at hP; cases hP)]

/-- C4.  Detaching the last client from a non-running, non-closing session
arms the idle-reclaim timer; a subsequent attach that resolves to that session
(by any client currently unbound) cancels the pending timer, does not kill the
process, and removes no registry key of the session.  (A timer that is not
pending cannot fire: `timerFire` on a session whose timer flag is clear is a
no-op, so the cancellation is permanent until a new arming.) -/
theorem claim4_detach_arms_attach_cancels (st : ServerState) (sid : Nat)
    (m : ManagedSession) (ws : Client)
    (hs : st.store sid = some m) (hb : st.socketBindings ws = some sid)
    (hcli : m.clients = [ws]) (hrun : m.isAgentRunning = false)
    (hcl : m.isClosing = false) (hkill : m.rpcKilled = false) :
    (((step st (.detachSession ws)).1.store sid).map
        (fun mm => mm.idleCleanupTimer) = some true) ∧
    (∀ (ws' : Client) (cwd : String) (sf : Option String),
      (ws' = ws ∨ st.socketBindings ws' = none) →
      st.rpcSessions (msgKey cwd sf) = some sid →
      (((step (step st (.detachSession ws)).1 (.startSession ws' cwd sf)).1.store
          sid).map (fun mm => mm.idleCleanupTimer) = some false) ∧
      (((step (step st (.detachSession ws)).1 (.startSession ws' cwd sf)).1.store
          sid).map (fun mm => mm.rpcKilled) = some false) ∧
      (∀ k, (step (step st (.detachSession ws)).1
          (.startSession ws' cwd sf)).1.rpcSessions k = st.rpcSessions k) ∧
      (step (step st (.detachSession ws)).1
          (.startSession ws' cwd sf)).1.socketBindings ws' = some sid) := by
  have hstep : (step st (.detachSession ws)).1 = detachSocket st ws := rfl
  have hdet : detachSocket st ws =
      { st with
        store := fun i =>
          if i = sid then
            some (cleanupIfIdle { m with clients := m.clients.erase ws })
          else st.store i
        socketBindings := fun w => if w = ws then none else st.socketBindings w } := by
    unfold detachSocket
    split
    · next heq => rw [hb] at heq; cases heq
    · next bsid heq =>
      rw [hb] at heq
      injection heq with he
      subst he
      split
      · next heq2 => rw [hs] at heq2; cases heq2
      · next bm heq2 =>
        rw [hs] at heq2
        injection heq2 with he2
        subst he2
        rfl
  have herase : m.clients.erase ws = [] := by
    rw [hcli]
    simp
  have harm : (cleanupIfIdle { m with clients := m.clients.erase ws }).idleCleanupTimer
      = true := by
    refine cleanupIfIdle_arms ?_ ?_ ?_ <;> simp [herase, hcl, hrun]
  constructor
  · rw [hstep, hdet]
    show ((if sid = sid then
        some (cleanupIfIdle { m with clients := m.clients.erase ws })
      else st.store sid).map (fun mm => mm.idleCleanupTimer)) = some true
    rw [if_pos rfl, Option.map_some', harm]
  · intro ws' cwd sf hw hr
    have hstep2 : ∀ X : ServerState, (step X (.startSession ws' cwd sf)).1 =
        handleStartSession X ws' cwd sf := fun X => rfl
    rw [hstep, hdet, hstep2]
    have hb' : ({ st with
        store := fun i =>
          if i = sid then
            some (cleanupIfIdle { m with clients := m.clients.erase ws })
          else st.store i
        socketBindings := fun w => if w = ws then none
          else st.socketBindings w } : ServerState).socketBindings ws' = none := by
      show (if ws' = ws then none else st.socketBindings ws') = none
      rcases hw with hww | hwn
      · rw [if_pos hww]
      · by_cases hww : ws' = ws
        · rw [if_pos hww]
        · rw [if_neg hww]
          exact hwn
    have hs' : ({ st with
        store := fun i =>
          if i = sid then
            some (cleanupIfIdle { m with clients := m.clients.erase ws })
          else st.store i
        socketBindings := fun w => if w = ws then none
          else st.socketBindings w } : ServerState).store sid =
        some (cleanupIfIdle { m with clients := m.clients.erase ws }) := by
      show (if sid = sid then
          some (cleanupIfIdle { m with clients := m.clients.erase ws })
        else st.store sid) =
        some (cleanupIfIdle { m with clients := m.clients.erase ws })
      rw [if_pos rfl]
    obtain ⟨ha1, ha2, ha3, ha4, ha5, ha6, ha7⟩ :=
      attach_resolves hb' hr hs' (by simp [hcl])
    refine ⟨?_, ?_, ?_, ha1⟩
    · rw [ha4]
      simp
    · rw [ha4]
      simp [hkill]
    · intro k
      rw [ha3]

/-- C8.  Capability-flag frame condition: the flag update extracted from an
event (`relevantModality`, mirroring `updateSessionModelCapability`'s
branches over `model_changed` events, `get_state` responses and successful
`set_model` responses) overwrites the session's image-capability flag when
present; when modality information is absent or malformed the flag is
unchanged — never reset to unknown; the verdict of a present input-modality
list is exactly "the list contains \\"image\\""; and in any reachable state,
the only step that changes the flag of session `sid` is an `agentEvent` for
`sid` whose event carries a modality verdict, which the flag then takes. -/
theorem claim8_capability_frame :
    (∀ (m : ManagedSession) (ev : Json) (b : Bool), relevantModality ev = some b →
      (updateSessionModelCapability m ev).currentModelSupportsImages = some b) ∧
    (∀ (m : ManagedSession) (ev : Json), relevantModality ev = none →
      (updateSessionModelCapability m ev).currentModelSupportsImages =
        m.currentModelSupportsImages) ∧
    (∀ (fs : List (String × Json)) (xs : List Json),
      lookupField fs "input" = some (.arr xs) →
      deriveModelSupportsImages (some (.obj fs)) =
        some (xs.any (fun x => x.asStr == some "image"))) ∧
    (∀ (labels : List Label) (l : Label) (sid : Nat) (m m' : ManagedSession),
      (run initState labels).store sid = some m →
      (step (run initState labels) l).1.store sid = some m' →
      m'.currentModelSupportsImages ≠ m.currentModelSupportsImages →
      ∃ ev b, l = Label.agentEvent sid ev ∧ relevantModality ev = some b ∧
        m'.currentModelSupportsImages = some b) := by
  refine ⟨?_, ?_, ?_, ?_⟩
  · intro m ev b h
    exact updCap_flag_some m h
  · intro m ev h
    exact updCap_flag_none m h
  · intro fs xs h
    unfold deriveModelSupportsImages
    split
    · next fs2 heq =>
      injection heq with he
      injection he with he2
      subst he2
      split
      · next zs heq2 =>
        rw [h] at heq2
        injection heq2 with hee
        injection hee with hee2
        subst hee2
        rfl
      · next hne2 => exact absurd h (hne2 xs)
    · next heq => exact absurd rfl (heq fs)
  · intro labels l sid m m' hm hm' hne
    exact flag_frame (ginv_run labels ginv_init) l hm hm' hne

/-- C9.  Client-binding invariant: in every reachable state a client belongs
to at most one session's client set; a client is bound to a session exactly
when it is in that session's client set (so each client is bound to at most
one session and the binding table and the client sets agree); and detaching a
bound client clears its binding and replaces the session object by the result
of removing the client and evaluating `cleanupIfIdle`. -/
theorem claim9_client_binding (labels : List Label) :
    (∀ (ws : Client) (sid sid' : Nat) (m m' : ManagedSession),
      (run initState labels).store sid = some m →
      (run initState labels).store sid' = some m' →
      ws ∈ m.clients → ws ∈ m'.clients → sid = sid') ∧
    (∀ (ws : Client) (sid : Nat),
      (run initState labels).socketBindings ws = some sid ↔
      ∃ m, (run initState labels).store sid = some m ∧ ws ∈ m.clients) ∧
    (∀ (ws : Client) (sid : Nat) (m : ManagedSession),
      (run initState labels).socketBindings ws = some sid →
      (run initState labels).store sid = some m →
      (step (run initState labels) (.detachSession ws)).1.socketBindings ws = none ∧
      (step (run initState labels) (.detachSession ws)).1.store sid =
        some (cleanupIfIdle { m with clients := m.clients.erase ws })) := by
  have hg : GlobalInv (run initState labels) := ginv_run labels ginv_init
  refine ⟨?_, ?_, ?_⟩
  · intro ws sid sid' m m' hm hm' hmem hmem'
    have h1 := hg.mem_bound sid m ws hm hmem
    have h2 := hg.mem_bound sid' m' ws hm' hmem'
    rw [h1] at h2
    injection h2
  · intro ws sid
    constructor
    · intro hbw
      obtain ⟨m, hm, hmem, _⟩ := hg.bound_mem ws sid hbw
      exact ⟨m, hm, hmem⟩
    · rintro ⟨m, hm, hmem⟩
      exact hg.mem_bound sid m ws hm hmem
  · intro ws sid m hbw hm
    have hstep : (step (run initState labels) (.detachSession ws)).1 =
        detachSocket (run initState labels) ws := rfl
    rw [hstep]
    unfold detachSocket
    split
    · next heq => rw [hbw] at heq; cases heq
    · next bsid heq =>
      rw [hbw] at heq
      injection heq with he
      subst he
      split
      · next heq2 => rw [hm] at heq2; cases heq2
      · next bm heq2 =>
        rw [hm] at heq2
        injection heq2 with he2
        subst he2
        constructor
        · show (if ws = ws then none else
            (run initState labels).socketBindings ws) = none
          rw [if_pos rfl]
        · show (if sid = sid then
              some (cleanupIfIdle { m with clients := m.clients.erase ws })
            else (run initState labels).store sid) =
            some (cleanupIfIdle { m with clients := m.clients.erase ws })
          rw [if_pos rfl]

/-- C2.  Key promotion: when a session receives a `get_state` response event
carrying a non-empty string `data.sessionFile`, the registry gains an entry
mapping the key built from the session's working directory and the file's
base name to that same session; every registry key already pointing at the
session keeps doing so; no new transport is constructed (the construction
trace and the id counter are unchanged); and a later attach by an unbound
client whose key resolves to this session — its original key or the
discovered one — reaches the same session without constructing anything. -/
theorem claim2_key_promotion (st : ServerState) (sid : Nat) (m : ManagedSession)
    (ev : Json) (s : String)
    (hs : st.store sid = some m) (hcl : m.isClosing = false)
    (htype : ev.strField "type" = some "response")
    (hcmd : ev.strField "command" = some "get_state")
    (hdata : (ev.field "data").bind (fun d => d.field "sessionFile") = some (.str s))
    (hsne : s ≠ "") :
    (step st (.agentEvent sid ev)).1.rpcSessions
        (buildSessionKey m.cwd (some (basename s))) = some sid ∧
    (∀ k0, st.rpcSessions k0 = some sid →
      (step st (.agentEvent sid ev)).1.rpcSessions k0 = some sid) ∧
    (step st (.agentEvent sid ev)).1.created = st.created ∧
    (step st (.agentEvent sid ev)).1.nextId = st.nextId ∧
    (∀ (ws : Client) (cwd : String) (sf : Option String),
      (step st (.agentEvent sid ev)).1.socketBindings ws = none →
      (step st (.agentEvent sid ev)).1.rpcSessions (msgKey cwd sf) = some sid →
      (step (step st (.agentEvent sid ev)).1 (.startSession ws cwd sf)).1.socketBindings
          ws = some sid ∧
      (step (step st (.agentEvent sid ev)).1 (.startSession ws cwd sf)).1.created =
        (step st (.agentEvent sid ev)).1.created) := by
  have hstate : (step st (.agentEvent sid ev)).1 = agentEventState st sid ev :=
    handleAgentEvent_state_some hs
  obtain ⟨m1, hm1, _, hc1, hw1, _, _, _⟩ := agentStartStep_some ev hs
  obtain ⟨m2, hm2, _, hc2, hw2, _, _, _⟩ := agentEndStep_some ev hm1
  have hm3 : (updStore (agentEndStep (agentStartStep st sid ev) sid ev) sid
      (fun mm => updateSessionModelCapability mm ev)).store sid =
      some (updateSessionModelCapability m2 ev) := updStore_some hm2
  have hcwd3 : (updateSessionModelCapability m2 ev).cwd = m.cwd := by
    rw [updCap_cwd, hw2, hw1]
  have hreg : agentEventState st sid ev =
      registerManagedSessionKey (updStore (agentEndStep (agentStartStep st sid ev)
        sid ev) sid (fun mm => updateSessionModelCapability mm ev)) sid
        (buildSessionKey m.cwd (some (basename s))) := by
    unfold agentEventState
    rw [registerDiscovered_registers hm3 htype hcmd hdata hsne, hcwd3]
  refine ⟨?_, ?_, ?_, ?_, ?_⟩
  · rw [hstate, hreg, registerKey_reg _ hm3, if_pos rfl]
  · intro k0 hk0
    rw [hstate]
    exact agentEventState_reg_to_sid ev hk0
  · rw [hstate, agentEventState_created]
  · rw [hstate, agentEventState_nextId]
  · intro ws cwd sf hbw hrw
    obtain ⟨m', hm', _, hcl', _, _⟩ := agentEventState_store_self ev hs
    rw [hstate] at hbw hrw ⊢
    have hcl'' : m'.isClosing = false := by rw [hcl', hcl]
    have hstep2 : (step (agentEventState st sid ev) (.startSession ws cwd sf)).1 =
        handleStartSession (agentEventState st sid ev) ws cwd sf := rfl
    rw [hstep2]
    obtain ⟨ha1, ha2, _, _, _, _, _⟩ := attach_resolves hbw hrw hm' hcl''
    exact ⟨ha1, ha2⟩

/-- C7.  Process-exit teardown: in any reachable state, when session `sid`'s
process exits, the terminal `session_ended` envelope goes to exactly the
clients attached at exit time; afterwards the session is marked closing,
every registry key that mapped to it is gone, no client is bound to it, its
client set is empty, and no client ever becomes bound to it again under any
continuation (a later attach for its key constructs a fresh session rather
than reaching this one). -/
theorem claim7_process_exit_teardown (labels : List Label) (sid : Nat)
    (m : ManagedSession) (code : Option Int)
    (hm : (run initState labels).store sid = some m) :
    (step (run initState labels) (.procExit sid code)).2 =
      m.clients.map (fun ws => Output.toClient ws (.sessionEnded code)) ∧
    (((step (run initState labels) (.procExit sid code)).1.store sid).map
      (fun mm => mm.isClosing) = some true) ∧
    (∀ k, (run initState labels).rpcSessions k = some sid →
      (step (run initState labels) (.procExit sid code)).1.rpcSessions k = none) ∧
    (∀ ws, (step (run initState labels) (.procExit sid code)).1.socketBindings ws ≠
      some sid) ∧
    (((step (run initState labels) (.procExit sid code)).1.store sid).map
      (fun mm => mm.clients) = some []) ∧
    (∀ (future : List Label) (ws : Client),
      (run (step (run initState labels) (.procExit sid code)).1 future).socketBindings
        ws ≠ some sid) := by
  have hg : GlobalInv (run initState labels) := ginv_run labels ginv_init
  have hstep : step (run initState labels) (.procExit sid code) =
      handleProcExit (run initState labels) sid code := rfl
  have hbind : ∀ ws, (handleProcExit (run initState labels) sid code).1.socketBindings
      ws ≠ some sid := by
    intro ws hcon
    rw [procExit_bindings code hm] at hcon
    split at hcon
    · cases hcon
    · next hnc =>
      obtain ⟨m2, hm2, hmem, _⟩ := hg.bound_mem ws sid hcon
      rw [hm2] at hm
      injection hm with he
      subst he
      exact hnc ⟨hmem, hcon⟩
  refine ⟨?_, ?_, ?_, ?_, ?_, ?_⟩
  · rw [hstep]
    rw [procExit_outputs code hm]
    rfl
  · rw [hstep, procExit_store code hm, if_pos rfl, Option.map_some']
  · intro k hk
    rw [hstep, procExit_reg code hm]
    obtain ⟨m2, hm2, hkm⟩ := hg.reg_keys k sid hk
    rw [hm2] at hm
    injection hm with he
    subst he
    rw [if_pos ⟨hkm, hk⟩]
  · intro ws
    rw [hstep]
    exact hbind ws
  · rw [hstep, procExit_store code hm, if_pos rfl, Option.map_some']
  · intro future ws
    have hcg : ClosedGone sid (step (run initState labels) (.procExit sid code)).1 := by
      refine ⟨?_, ?_, ?_⟩
      · rw [hstep, procExit_store code hm, if_pos rfl]
        exact ⟨_, rfl, rfl⟩
      · intro w
        rw [hstep]
        exact hbind w
      · rw [hstep, procExit_nextId]
        by_contra hge
        rw [hg.fresh sid (Nat.le_of_not_lt hge)] at hm
        cases hm
    exact (closedGone_run future hcg).unbound ws

/-- C1.  Single-flight per key: along any execution consisting of client
actions (attach, detach, command, keepalive) from any number of clients, at
most one transport is ever constructed for a given registry key; and every
attach whose message resolves to that key reaches the session that was
constructed for the key — binding the requesting client to that very session
id and constructing nothing new. -/
theorem claim1_single_flight (labels : List Label)
    (hcl : ∀ l ∈ labels, clientLabel l = true) (k : String) :
    countCreatedFor k (run initState labels) ≤ 1 ∧
    (∀ (ws : Client) (cwd : String) (sf : Option String) (sid : Nat),
      msgKey cwd sf = k → (k, sid) ∈ (run initState labels).created →
      (step (run initState labels) (.startSession ws cwd sf)).1.socketBindings ws =
        some sid ∧
      (step (run initState labels) (.startSession ws cwd sf)).1.created =
        (run initState labels).created) := by
  have hKI : KeyInv k (run initState labels) := keyInv_run k labels hcl (keyInv_init k)
  have hg : GlobalInv (run initState labels) := ginv_run labels ginv_init
  refine ⟨hKI.count_le, ?_⟩
  intro ws cwd sf sid hk hmem
  have hr : (run initState labels).rpcSessions k = some sid :=
    hKI.created_reg (k, sid) hmem rfl
  obtain ⟨m, hm, hmcl⟩ := hKI.reg_live sid hr
  have hstep : (step (run initState labels) (.startSession ws cwd sf)).1 =
      handleStartSession (run initState labels) ws cwd sf := rfl
  rw [hstep]
  unfold handleStartSession
  split
  · next hab =>
    obtain ⟨bsid, bm, hbw, hbm, hkm⟩ := alreadyBound_inv hab
    have hbr : (run initState labels).rpcSessions k = some bsid :=
      hKI.keys_reg bsid bm hbm (hk ▸ hkm)
    rw [hr] at hbr
    injection hbr with he
    subst he
    split
    · next bsid2 heq =>
      rw [hbw] at heq
      injection heq with he2
      subst he2
      constructor
      · rw [updStore_bindings]
        exact hbw
      · rw [updStore_created]
    · next heq => rw [hbw] at heq; cases heq
  · have hwn : (detachSocket (run initState labels) ws).socketBindings ws = none :=
      detach_binding_self ws hg
    have hKI0 : KeyInv k (detachSocket (run initState labels) ws) :=
      keyInv_detachSocket ws k hKI
    have hr0 : (detachSocket (run initState labels) ws).rpcSessions k = some sid := by
      rw [detachSocket_reg]
      exact hr
    obtain ⟨m0, hm0, hcl0⟩ := hKI0.reg_live sid hr0
    have hll : lookupLive (detachSocket (run initState labels) ws)
        (buildSessionKey (msgCwd cwd) (normalizeSessionFile sf)) = some sid := by
      refine lookupLive_some ?_ hm0 hcl0
      show (detachSocket (run initState labels) ws).rpcSessions (msgKey cwd sf) =
        some sid
      rw [hk]
      exact hr0
    rw [attachProceed_eq, resolveOrCreate_some hll]
    constructor
    · rw [joinBind_bindings, if_pos rfl]
    · rw [joinBind_created, detachSocket_created]

/-! ## Witnesses: each hypothesis-bearing claim theorem applied at a concrete
scenario. -/

theorem claim3_running_never_reclaimed_witness :
    (step (updStore (run initState [.startSession 0 "/a" none, .detachSession 0]) 0
      (fun m => { m with isAgentRunning := true })) (.timerFire 0)).1.store 0 = some
        { cwd := "/a", sessionFile := none, clients := [], isAgentRunning := true,
          currentModelSupportsImages := none, keys := ["/a::__new__"],
          idleCleanupTimer := false, isClosing := false, rpcKilled := false } :=
  (claim3_running_never_reclaimed.2 _ 0
    { cwd := "/a", sessionFile := none, clients := [], isAgentRunning := true,
      currentModelSupportsImages := none, keys := ["/a::__new__"],
      idleCleanupTimer := true, isClosing := false, rpcKilled := false }
    (by decide) rfl (Or.inl rfl)).1

theorem claim5_attachment_admission_witness :
    step (run initState [.startSession 0 "/a" none])
        (.rpcCommand 0 (Json.obj [("type", Json.str "prompt"),
          ("images", Json.arr [Json.null])])) =
      (run initState [.startSession 0 "/a" none],
        [.toTransport 0 (Json.obj [("type", Json.str "prompt"),
          ("images", Json.arr [Json.null])])]) :=
  (claim5_attachment_admission (run initState [.startSession 0 "/a" none]) 0 0
    { cwd := "/a", sessionFile := none, clients := [0], isAgentRunning := false,
      currentModelSupportsImages := none, keys := ["/a::__new__"],
      idleCleanupTimer := false, isClosing := false, rpcKilled := false }
    (Json.obj [("type", Json.str "prompt"), ("images", Json.arr [Json.null])])
    (by decide) (by decide) (by decide) (by decide)).2 (Or.inr rfl)

theorem claim10_admission_scope_witness :
    (step (run initState [.startSession 0 "/a" none])
      (.rpcCommand 0 (Json.obj [("type", Json.str "other"),
        ("images", Json.arr [Json.null])]))).2 =
      [.toTransport 0 (Json.obj [("type", Json.str "other"),
        ("images", Json.arr [Json.null])])] :=
  (claim10_admission_scope (run initState [.startSession 0 "/a" none]) 0 0
    { cwd := "/a", sessionFile := none, clients := [0], isAgentRunning := false,
      currentModelSupportsImages := none, keys := ["/a::__new__"],
      idleCleanupTimer := false, isClosing := false, rpcKilled := false }
    (Json.obj [("type", Json.str "other"), ("images", Json.arr [Json.null])])
    (by decide) (by decide)).2.2 (by decide)

theorem claim4_detach_arms_attach_cancels_witness :
    (step (step (run initState [.startSession 0 "/a" none]) (.detachSession 0)).1
      (.startSession 1 "/a" none)).1.socketBindings 1 = some 0 :=
  ((claim4_detach_arms_attach_cancels (run initState [.startSession 0 "/a" none]) 0
    { cwd := "/a", sessionFile := none, clients := [0], isAgentRunning := false,
      currentModelSupportsImages := none, keys := ["/a::__new__"],
      idleCleanupTimer := false, isClosing := false, rpcKilled := false }
    0 (by decide) (by decide) rfl rfl rfl rfl).2 1 "/a" none
    (Or.inr (by decide)) (by decide)).2.2.2

theorem claim8_capability_frame_witness :
    (updateSessionModelCapability
      { cwd := "/a", sessionFile := none, clients := [], isAgentRunning := false,
        currentModelSupportsImages := some false, keys := [],
        idleCleanupTimer := false, isClosing := false, rpcKilled := false }
      (Json.obj [("type", Json.str "model_changed"),
        ("model", Json.obj [("input",
          Json.arr [Json.str "text", Json.str "image"])])])).currentModelSupportsImages =
      some true :=
  claim8_capability_frame.1
    { cwd := "/a", sessionFile := none, clients := [], isAgentRunning := false,
      currentModelSupportsImages := some false, keys := [],
      idleCleanupTimer := false, isClosing := false, rpcKilled := false }
    (Json.obj [("type", Json.str "model_changed"),
      ("model", Json.obj [("input", Json.arr [Json.str "text", Json.str "image"])])])
    true (by decide)

theorem claim9_client_binding_witness :
    (step (run initState [.startSession 0 "/a" none])
      (.detachSession 0)).1.socketBindings 0 = none :=
  ((claim9_client_binding [.startSession 0 "/a" none]).2.2 0 0
    { cwd := "/a", sessionFile := none, clients := [0], isAgentRunning := false,
      currentModelSupportsImages := none, keys := ["/a::__new__"],
      idleCleanupTimer := false, isClosing := false, rpcKilled := false }
    (by decide) (by decide)).1

theorem claim2_key_promotion_witness :
    (step (run initState [.startSession 0 "/a" none])
      (.agentEvent 0 (Json.obj [("type", Json.str "response"),
        ("command", Json.str "get_state"),
        ("data", Json.obj [("sessionFile",
          Json.str "/a/s.jsonl")])]))).1.rpcSessions
      (buildSessionKey "/a" (some (basename "/a/s.jsonl"))) = some 0 :=
  (claim2_key_promotion (run initState [.startSession 0 "/a" none]) 0
    { cwd := "/a", sessionFile := none, clients := [0], isAgentRunning := false,
      currentModelSupportsImages := none, keys := ["/a::__new__"],
      idleCleanupTimer := false, isClosing := false, rpcKilled := false }
    (Json.obj [("type", Json.str "response"), ("command", Json.str "get_state"),
      ("data", Json.obj [("sessionFile", Json.str "/a/s.jsonl")])])
    "/a/s.jsonl" (by decide) rfl rfl rfl rfl (by decide)).1

theorem claim7_process_exit_teardown_witness :
    ((step (run initState [.startSession 0 "/a" none])
      (.procExit 0 (some 0))).1.store 0).map (fun mm => mm.isClosing) = some true :=
  (claim7_process_exit_teardown [.startSession 0 "/a" none] 0
    { cwd := "/a", sessionFile := none, clients := [0], isAgentRunning := false,
      currentModelSupportsImages := none, keys := ["/a::__new__"],
      idleCleanupTimer := false, isClosing := false, rpcKilled := false }
    (some 0) (by decide)).2.1

theorem claim1_single_flight_witness :
    (step (run initState [.startSession 0 "/a" none, .startSession 1 "/a" none])
      (.startSession 2 "/a" none)).1.socketBindings 2 = some 0 :=
  ((claim1_single_flight [.startSession 0 "/a" none, .startSession 1 "/a" none]
    (by decide) "/a::__new__").2 2 "/a" none 0 (by decide) (by decide)).1

end PiWeb
